import Mathlib

/-!
# SocketCanDriver: lifecycle, bounded transmit queue and the two I/O loops

A shallow embedding of `socketcan_driver.hpp` / `socketcan_driver.cpp`.

* The member variables of `class SocketCanDriver` become the fields of the
  structure `SocketCanDriver`; the few things the code does to the outside
  world (descriptors it opens and closes, frames it hands to `write`, frames
  it hands to the receive callback, lines it prints on `std::cerr`) are
  recorded in four further fields of the same structure.
* Every system call result is an explicit argument (`StartEnv`, `RxEvent`,
  the `nbytes` of a `write`), kept as the `int`/`ssize_t` the code tests.
* `recvThread` and `sendThread` are small-step machines with a program
  counter, so that caller operations and loop steps can be interleaved.
  The blocks the code runs under `send_mutex_` are single steps. A call of
  `send` is allowed at any point between two steps, also where the send
  thread still holds the mutex and the real call would wait: the properties
  below are proved for every interleaving, the possible ones included.
* `send_cv_.wait` is modelled with its window: the predicate is tested under
  the mutex, and the thread blocks afterwards. `send` notifies under the mutex,
  `stop` does not, so the `notify_all` of `stop` can fall into the window and
  be lost.
* `join` lets the joined thread run. A call of `stop` returns only if both
  threads return: `stop` gives `none` when the call never returns, `stop_run`
  gives the state the driver is left in either way (`stop_eq`,
  `sendThread_run_returns`, `sendThread_run_blocks`).
* Move-assigning the thread members in `start` presupposes that they are not
  joinable; this holds whenever the driver is not running and no call of
  `stop` is still waiting (`not_stopping_threads`).
-/

namespace SocketCan

/-- Frame of `linux/can.h` as the driver uses it: identifier, length code, payload. -/
structure can_frame where
  can_id : Nat
  can_dlc : Nat
  data : List Nat
deriving DecidableEq, Repr

/-- Size in bytes of `struct can_frame` (`sizeof(frame)` in the source; fixed by `linux/can.h`). -/
def sizeof_can_frame : Int := 16

/-- Capacity of the send queue (`static constexpr size_t MAX_QUEUE_SIZE = 10000`). -/
def MAX_QUEUE_SIZE : Nat := 10000

/-- Lines the driver prints on `std::cerr`, one constructor per message in the source. -/
inductive Diag where
  | creating_socket
  | getting_interface_index
  | binding_socket
  | setting_non_blocking
  | reading_frame
  | poll_error
  | sending_frame
deriving DecidableEq, Repr

/-- Program counter of `recvThread` (lines 90-111). -/
inductive RxPc where
  /-- About to evaluate `while (running_)` at line 95. -/
  | loop_head
  /-- Inside the loop body, about to call `poll` at line 96. -/
  | iteration
  /-- The function has returned; the thread is finished but not yet joined. -/
  | returned
deriving DecidableEq, Repr

/-- Program counter of `sendThread` (lines 113-132). -/
inductive TxPc where
  /-- About to evaluate `while (running_)` at line 114. -/
  | loop_head
  /-- Lock taken at line 115; inside `send_cv_.wait` at line 116, about to
  evaluate its predicate `!send_queue_.empty() || !running_` with the lock held. -/
  | cv_wait
  /-- Inside `send_cv_.wait`: the predicate was false; about to release the lock
  and block, in one atomic operation. The lock is still held. -/
  | cv_unlock
  /-- Inside `send_cv_.wait`: blocked with the lock released, until notified. -/
  | cv_blocked
  /-- Lock held, about to evaluate `!send_queue_.empty() && running_` at line 118. -/
  | drain_check
  /-- The frame was popped and the lock released (lines 119-121); about to `write` at line 123. -/
  | writing (frame : can_frame)
  /-- The function has returned; the thread is finished but not yet joined. -/
  | returned
deriving DecidableEq, Repr

/-- State of one driver object together with the trace of its effects.

`recv_thread_` / `send_thread_` are `none` when the `std::thread` member is
not joinable and `some pc` when it owns a thread standing at `pc`. -/
structure SocketCanDriver where
  /-- Member `interface_name_`. -/
  interface_name_ : String
  /-- Member `recv_callback_`: `true` when the `std::function` holds a target. -/
  recv_callback_ : Bool
  /-- Member `socket_fd_` (initially `-1`). -/
  socket_fd_ : Int
  /-- Member `running_` (initially `false`). -/
  running_ : Bool
  /-- Member `send_queue_`, head of the list = front of the queue. -/
  send_queue_ : List can_frame
  /-- Member `recv_thread_`. -/
  recv_thread_ : Option RxPc
  /-- Member `send_thread_`. -/
  send_thread_ : Option TxPc
  /-- Effect trace: descriptors this driver obtained from `socket` and has not closed. -/
  open_fds : List Int
  /-- Effect trace: every call `write(socket_fd_, &frame, sizeof(frame))` with its result. -/
  wire : List (can_frame × Int)
  /-- Effect trace: every call `recv_callback_(frame)`, oldest first. -/
  handled : List can_frame
  /-- Effect trace: lines printed on `std::cerr`. -/
  cerr : List Diag
deriving DecidableEq, Repr

/-- Results of the system calls made by one call of `start`. -/
structure StartEnv where
  /-- Result of `socket(PF_CAN, SOCK_RAW, CAN_RAW)`. -/
  socket_ret : Int
  /-- Result of `ioctl(socket_fd_, SIOCGIFINDEX, &ifr)`. -/
  ioctl_ret : Int
  /-- Result of `bind(...)`. -/
  bind_ret : Int
  /-- Result of `fcntl(socket_fd_, F_GETFL, 0)`. -/
  getfl_ret : Int
  /-- Result of `fcntl(socket_fd_, F_SETFL, flags | O_NONBLOCK)`. -/
  setfl_ret : Int
deriving DecidableEq, Repr

/-- What the kernel answers during one iteration of `recvThread`. -/
structure RxEvent where
  /-- Result of `poll(&pfd, 1, 10)`. -/
  poll_ret : Int
  /-- Whether `pfd.revents & POLLIN` is non-zero. -/
  pollin : Bool
  /-- Result of `read(socket_fd_, &frame, sizeof(frame))`, were it called. -/
  nbytes : Int
  /-- Content of the buffer after the read. -/
  frame : can_frame
  /-- Whether `errno` is `EAGAIN` or `EWOULDBLOCK` after the read. -/
  would_block : Bool
deriving DecidableEq, Repr

namespace SocketCanDriver

/-- The constructor: stores the two arguments, every other member has its default initialiser. -/
def construct (interface_name : String) (recv_callback : Bool) : SocketCanDriver :=
  { interface_name_ := interface_name
    recv_callback_ := recv_callback
    socket_fd_ := -1
    running_ := false
    send_queue_ := []
    recv_thread_ := none
    send_thread_ := none
    open_fds := []
    wire := []
    handled := []
    cerr := [] }

/-- Effect of `socket(...)` returning `ret` on the set of descriptors held open:
a negative result opens nothing. -/
def open_fd (fds : List Int) (ret : Int) : List Int :=
  if ret < 0 then fds else ret :: fds

/-- Effect of `close(fd)` on the set of descriptors held open. -/
def close_fd (fds : List Int) (fd : Int) : List Int :=
  fds.filter (fun x => x ≠ fd)

/-- Rollback shared by the three failure branches after the socket exists
(lines 36-39, 47-50, 56-59): print, `close(socket_fd_)`, `socket_fd_ = -1`. -/
def start_rollback (s : SocketCanDriver) (msg : Diag) : SocketCanDriver :=
  { s with
    cerr := s.cerr ++ [msg]
    open_fds := close_fd s.open_fds s.socket_fd_
    socket_fd_ := -1 }

/-- Member function `start` (lines 19-67). The thread members are assigned a
freshly launched thread, standing at the head of its loop. -/
def start (s : SocketCanDriver) (env : StartEnv) : Bool × SocketCanDriver :=
  if s.running_ then (true, s)
  else
    -- socket_fd_ = socket(...)
    let s1 : SocketCanDriver :=
      { s with
        socket_fd_ := env.socket_ret
        open_fds := open_fd s.open_fds env.socket_ret }
    if s1.socket_fd_ < 0 then
      (false, { s1 with cerr := s1.cerr ++ [Diag.creating_socket] })
    else if env.ioctl_ret < 0 then
      (false, start_rollback s1 Diag.getting_interface_index)
    else if env.bind_ret < 0 then
      (false, start_rollback s1 Diag.binding_socket)
    else if env.getfl_ret = -1 ∨ env.setfl_ret = -1 then
      (false, start_rollback s1 Diag.setting_non_blocking)
    else
      (true, { s1 with
               running_ := true
               recv_thread_ := some RxPc.loop_head
               send_thread_ := some TxPc.loop_head })

/-- Member function `send` (lines 80-88), executed under `send_mutex_`. -/
def send (s : SocketCanDriver) (frame : can_frame) : Bool × SocketCanDriver :=
  if !s.running_ || decide (s.send_queue_.length ≥ MAX_QUEUE_SIZE) then (false, s)
  else (true, { s with send_queue_ := s.send_queue_ ++ [frame] })

/-- Body of the loop of `recvThread` (lines 96-109) for one kernel answer. -/
def recvThread_body (s : SocketCanDriver) (ev : RxEvent) : SocketCanDriver :=
  if 0 < ev.poll_ret ∧ ev.pollin = true then
    if ev.nbytes = sizeof_can_frame then
      if s.recv_callback_ then { s with handled := s.handled ++ [ev.frame] } else s
    else if ev.nbytes < 0 ∧ ev.would_block = false then
      { s with cerr := s.cerr ++ [Diag.reading_frame] }
    else s
  else if ev.poll_ret < 0 then
    { s with cerr := s.cerr ++ [Diag.poll_error] }
  else s

/-- One step of the thread running `recvThread`. -/
def recvThread_step (s : SocketCanDriver) (ev : RxEvent) : SocketCanDriver :=
  match s.recv_thread_ with
  | none => s
  | some RxPc.loop_head =>
    if s.running_ then { s with recv_thread_ := some RxPc.iteration }
    else { s with recv_thread_ := some RxPc.returned }
  | some RxPc.iteration =>
    { recvThread_body s ev with recv_thread_ := some RxPc.loop_head }
  | some RxPc.returned => s

/-- One step of the thread running `sendThread`; `nbytes` is the result of
`write` when the step is the write of line 123.

`send_cv_.wait(lock, pred)` is `while (!pred()) wait(lock)`: the predicate is
tested with the lock held (`cv_wait`); if it is false the thread releases the
lock and blocks (`cv_unlock`, then `cv_blocked`) and stays blocked until it is
notified, after which it tests the predicate again. `send` pushes and calls
`notify_one` under the lock, so for a blocked thread "a `notify_one` of `send`
has arrived" is the same as "the queue is not empty", and this is how the step
at `cv_blocked` sees it. The `notify_all` of `stop` is not made under the lock
and is applied by `stop_enter`. Spurious wake-ups are not assumed. -/
def sendThread_step (s : SocketCanDriver) (nbytes : Int) : SocketCanDriver :=
  match s.send_thread_ with
  | none => s
  | some TxPc.loop_head =>
    if s.running_ then { s with send_thread_ := some TxPc.cv_wait }
    else { s with send_thread_ := some TxPc.returned }
  | some TxPc.cv_wait =>
    if !s.send_queue_.isEmpty || !s.running_ then { s with send_thread_ := some TxPc.drain_check }
    else { s with send_thread_ := some TxPc.cv_unlock }
  | some TxPc.cv_unlock => { s with send_thread_ := some TxPc.cv_blocked }
  | some TxPc.cv_blocked =>
    if !s.send_queue_.isEmpty then { s with send_thread_ := some TxPc.cv_wait } else s
  | some TxPc.drain_check =>
    match s.send_queue_ with
    | [] => { s with send_thread_ := some TxPc.loop_head }
    | frame :: rest =>
      if s.running_ then
        { s with send_queue_ := rest, send_thread_ := some (TxPc.writing frame) }
      else { s with send_thread_ := some TxPc.loop_head }
  | some (TxPc.writing frame) =>
    { s with
      wire := s.wire ++ [(frame, nbytes)]
      cerr := if nbytes ≠ sizeof_can_frame then s.cerr ++ [Diag.sending_frame] else s.cerr
      send_thread_ := some TxPc.drain_check }
  | some TxPc.returned => s

/-- Runs the receive thread for at most `fuel` steps, stopping once it has returned. -/
def recvThread_run : Nat → SocketCanDriver → RxEvent → SocketCanDriver
  | 0, s, _ => s
  | fuel + 1, s, ev =>
    if s.recv_thread_ = some RxPc.returned then s
    else recvThread_run fuel (recvThread_step s ev) ev

/-- Runs the send thread for at most `fuel` steps, stopping once it has returned. -/
def sendThread_run : Nat → SocketCanDriver → Int → SocketCanDriver
  | 0, s, _ => s
  | fuel + 1, s, nbytes =>
    if s.send_thread_ = some TxPc.returned then s
    else sendThread_run fuel (sendThread_step s nbytes) nbytes

/-- The call `recv_thread_.join()`: lets the thread run; the member stops being
joinable only if the thread has really returned. -/
def join_recv (s : SocketCanDriver) (ev : RxEvent) : SocketCanDriver :=
  let t := recvThread_run 4 s ev
  if t.recv_thread_ = some RxPc.returned then { t with recv_thread_ := none } else t

/-- The call `send_thread_.join()`, as `join_recv`. A thread that is still
blocked in `send_cv_.wait` when it has run as far as it goes stays so, and the
member stays joinable: the call is still waiting. -/
def join_send (s : SocketCanDriver) (nbytes : Int) : SocketCanDriver :=
  let t := sendThread_run 6 s nbytes
  if t.send_thread_ = some TxPc.returned then { t with send_thread_ := none } else t

/-- Effect of `send_cv_.notify_all()`: a thread blocked in `send_cv_.wait` wakes
up and goes back to testing the predicate; a thread that is not blocked, also
one that is about to block, does not notice. -/
def notify_all (s : SocketCanDriver) : SocketCanDriver :=
  if s.send_thread_ = some TxPc.cv_blocked then { s with send_thread_ := some TxPc.cv_wait }
  else s

/-- Lines 70-71 of `stop`: `running_ = false; send_cv_.notify_all();`, neither
of them under `send_mutex_`. -/
def stop_enter (s : SocketCanDriver) : SocketCanDriver :=
  notify_all { s with running_ := false }

/-- State in which a call of `stop` (lines 69-78) leaves the driver once both
threads have run as far as they go: the flag is cleared, the notification sent,
and each joinable thread joined if it has returned. `ev` and `nbytes` are the
kernel answers to the `poll`/`read` and to the `write` that may be in flight
while the caller waits in `join`. -/
def stop_run (s : SocketCanDriver) (ev : RxEvent) (nbytes : Int) : SocketCanDriver :=
  let s1 := stop_enter s
  let s2 := if s1.recv_thread_.isSome then join_recv s1 ev else s1
  if s2.send_thread_.isSome then join_send s2 nbytes else s2

/-- Member function `stop` as a call: the state in which it returns, or `none`
when it never returns because a `join` is still waiting. -/
def stop (s : SocketCanDriver) (ev : RxEvent) (nbytes : Int) : Option SocketCanDriver :=
  let t := stop_run s ev nbytes
  if t.recv_thread_ = none ∧ t.send_thread_ = none then some t else none

/-- The destructor (lines 12-17): `stop()`, then `close(socket_fd_)` unless it
is `-1`; `none` when `stop()` never returns. -/
def destroy (s : SocketCanDriver) (ev : RxEvent) (nbytes : Int) : Option SocketCanDriver :=
  (stop s ev nbytes).map fun s1 =>
    if s1.socket_fd_ ≠ -1 then { s1 with open_fds := close_fd s1.open_fds s1.socket_fd_ } else s1

/-- A call of `stop` is in progress: the flag is cleared and a thread is still
to be joined. The owner of the driver is inside that call. -/
def stopping (s : SocketCanDriver) : Bool :=
  !s.running_ && (s.recv_thread_.isSome || s.send_thread_.isSome)

end SocketCanDriver

open SocketCanDriver

/-- What can happen next to a driver: a call of `start` or `stop` by its owner,
a call of `send`, or a step of one of its threads. -/
inductive Action where
  | start (env : StartEnv)
  | stop (ev : RxEvent) (nbytes : Int)
  | send (frame : can_frame)
  | recv_step (ev : RxEvent)
  | send_step (nbytes : Int)
deriving DecidableEq, Repr

/-- Effect of one action on the state. An owner that is still inside `stop`
makes no further call of `start` or `stop`. -/
def step (s : SocketCanDriver) : Action → SocketCanDriver
  | Action.start env => if stopping s then s else (start s env).2
  | Action.stop ev nbytes => if stopping s then s else stop_run s ev nbytes
  | Action.send frame => (send s frame).2
  | Action.recv_step ev => recvThread_step s ev
  | Action.send_step nbytes => sendThread_step s nbytes

/-- Effect of a finite sequence of actions. -/
def run (s : SocketCanDriver) (acts : List Action) : SocketCanDriver :=
  acts.foldl step s

/-- States reachable from a freshly constructed driver in which the owner is
between two calls: every call of `stop` made so far has returned. -/
def Reachable (s : SocketCanDriver) : Prop :=
  ∃ (name : String) (cb : Bool) (acts : List Action),
    s = run (construct name cb) acts ∧ stopping s = false

/-! ## Vocabulary of the properties -/

/-- Frame the send thread has popped and not yet written. -/
def pending (s : SocketCanDriver) : List can_frame :=
  match s.send_thread_ with
  | some (TxPc.writing frame) => [frame]
  | _ => []

/-- Frames handed to `write` so far, whatever the result, oldest first. -/
def attempted (s : SocketCanDriver) : List can_frame :=
  s.wire.map Prod.fst

/-- Frames whose `write` returned `sizeof(frame)`, oldest first. -/
def written (s : SocketCanDriver) : List can_frame :=
  (s.wire.filter (fun w => decide (w.2 = sizeof_can_frame))).map Prod.fst

/-- Frames for which `send` returned `true` while `acts` ran from `s`, in call order. -/
def accepted : SocketCanDriver → List Action → List can_frame
  | _, [] => []
  | s, Action.send frame :: acts =>
    if (send s frame).1 then frame :: accepted (send s frame).2 acts
    else accepted (send s frame).2 acts
  | s, a :: acts => accepted (step s a) acts

/-- The action is a call of `send` or a step of one of the two loops. -/
def Action.is_send_or_loop_step : Action → Bool
  | Action.send _ => true
  | Action.recv_step _ => true
  | Action.send_step _ => true
  | _ => false

/-- The action is not a `write` that fails or is short. -/
def Action.write_succeeds : Action → Bool
  | Action.send_step nbytes => decide (nbytes = sizeof_can_frame)
  | _ => true

/-- Calls `send` on each frame in turn; returns the results and the final state. -/
def send_all : SocketCanDriver → List can_frame → List Bool × SocketCanDriver
  | s, [] => ([], s)
  | s, frame :: frames =>
    let r := send s frame
    let rs := send_all r.2 frames
    (r.1 :: rs.1, rs.2)

/-- One full turn of the loop of `recvThread`: the test of line 95, then the body. -/
def recvThread_turn (s : SocketCanDriver) (ev : RxEvent) : SocketCanDriver :=
  recvThread_step (recvThread_step s ev) ev

/-- The receive loop taken through a sequence of kernel answers. -/
def recvThread_loop (s : SocketCanDriver) (evs : List RxEvent) : SocketCanDriver :=
  evs.foldl recvThread_turn s

/-- The kernel answer carries a whole frame: `poll` reported `POLLIN` and
`read` returned exactly `sizeof(can_frame)` bytes. -/
def RxEvent.full_frame (ev : RxEvent) : Bool :=
  decide (0 < ev.poll_ret) && ev.pollin && decide (ev.nbytes = 16)

/-- Frames delivered whole by the transport, in delivery order. -/
def delivered (evs : List RxEvent) : List can_frame :=
  (evs.filter RxEvent.full_frame).map RxEvent.frame

/-- At least one acquisition sub-step of `start` fails: socket creation,
interface-index lookup, bind, or setting non-blocking mode. -/
def StartEnv.fails (env : StartEnv) : Prop :=
  env.socket_ret < 0 ∨ env.ioctl_ret < 0 ∨ env.bind_ret < 0 ∨
    (env.getfl_ret = -1 ∨ env.setfl_ret = -1)

/-- Every acquisition sub-step of `start` succeeds. -/
def StartEnv.succeeds (env : StartEnv) : Prop :=
  0 ≤ env.socket_ret ∧ 0 ≤ env.ioctl_ret ∧ 0 ≤ env.bind_ret ∧
    env.getfl_ret ≠ -1 ∧ env.setfl_ret ≠ -1

/-- The send thread exists and has not returned. -/
def send_thread_alive (s : SocketCanDriver) : Bool :=
  match s.send_thread_ with
  | none => false
  | some TxPc.returned => false
  | some _ => true

/-- Number of its own steps within which a live send thread has emptied the queue. -/
def drain_steps (s : SocketCanDriver) : Nat :=
  match s.send_thread_ with
  | some TxPc.loop_head => 2 * s.send_queue_.length + 2
  | some TxPc.cv_wait => 2 * s.send_queue_.length + 1
  | some TxPc.cv_unlock => 2 * s.send_queue_.length + 3
  | some TxPc.cv_blocked => 2 * s.send_queue_.length + 2
  | some TxPc.drain_check => 2 * s.send_queue_.length
  | some (TxPc.writing _) => 2 * s.send_queue_.length + 1
  | _ => 0

/-- Nothing is left to transmit: the queue is empty and no frame is in flight. -/
def quiet (s : SocketCanDriver) : Prop :=
  s.send_queue_ = [] ∧ pending s = []

/-- The send thread has found the predicate of `send_cv_.wait` false on an
empty queue and has not blocked yet: a `notify_all` made now is lost. -/
def lost_wakeup_window (s : SocketCanDriver) : Bool :=
  decide (s.send_thread_ = some TxPc.cv_unlock) && s.send_queue_.isEmpty

/-- Facts that hold in every state the system can be in: the queue respects its
capacity; when the flag is false there is no receive thread and the send
thread is absent or blocked for good on an empty queue (a `stop` that never
returns); a running driver refers to a descriptor that is open; and open
descriptors are non-negative. -/
def Inv (s : SocketCanDriver) : Prop :=
  s.send_queue_.length ≤ MAX_QUEUE_SIZE ∧
  (s.running_ = false → s.recv_thread_ = none ∧
    (s.send_thread_ = none ∨ (s.send_thread_ = some TxPc.cv_blocked ∧ s.send_queue_ = []))) ∧
  (s.running_ = true → s.socket_fd_ ∈ s.open_fds) ∧
  (∀ fd ∈ s.open_fds, 0 ≤ fd)

/-! ## Effect of each operation on each field -/

section frame_lemmas

variable (s : SocketCanDriver)

theorem recvThread_body_fields (ev : RxEvent) :
    (recvThread_body s ev).send_queue_ = s.send_queue_ ∧
    (recvThread_body s ev).running_ = s.running_ ∧
    (recvThread_body s ev).socket_fd_ = s.socket_fd_ ∧
    (recvThread_body s ev).open_fds = s.open_fds ∧
    (recvThread_body s ev).wire = s.wire ∧
    (recvThread_body s ev).send_thread_ = s.send_thread_ ∧
    (recvThread_body s ev).recv_thread_ = s.recv_thread_ ∧
    (recvThread_body s ev).recv_callback_ = s.recv_callback_ := by
  unfold recvThread_body
  split_ifs <;> simp

theorem recvThread_step_fields (ev : RxEvent) :
    (recvThread_step s ev).send_queue_ = s.send_queue_ ∧
    (recvThread_step s ev).running_ = s.running_ ∧
    (recvThread_step s ev).socket_fd_ = s.socket_fd_ ∧
    (recvThread_step s ev).open_fds = s.open_fds ∧
    (recvThread_step s ev).wire = s.wire ∧
    (recvThread_step s ev).send_thread_ = s.send_thread_ ∧
    (recvThread_step s ev).recv_callback_ = s.recv_callback_ := by
  unfold recvThread_step
  split
  · simp
  · split_ifs <;> simp
  · simp [recvThread_body_fields]
  · simp

theorem sendThread_step_fields (nbytes : Int) :
    (sendThread_step s nbytes).running_ = s.running_ ∧
    (sendThread_step s nbytes).socket_fd_ = s.socket_fd_ ∧
    (sendThread_step s nbytes).open_fds = s.open_fds ∧
    (sendThread_step s nbytes).handled = s.handled ∧
    (sendThread_step s nbytes).recv_thread_ = s.recv_thread_ ∧
    (sendThread_step s nbytes).recv_callback_ = s.recv_callback_ := by
  cases hpc : s.send_thread_ with
  | none => simp [sendThread_step, hpc]
  | some pc =>
    cases hq : s.send_queue_ <;> cases hr : s.running_ <;> cases pc <;>
      simp [sendThread_step, hpc, hq, hr]

theorem sendThread_step_queue_le (nbytes : Int) :
    (sendThread_step s nbytes).send_queue_.length ≤ s.send_queue_.length := by
  cases hpc : s.send_thread_ with
  | none => simp [sendThread_step, hpc]
  | some pc =>
    cases hq : s.send_queue_ <;> cases hr : s.running_ <;> cases pc <;>
      simp [sendThread_step, hpc, hq, hr]

theorem sendThread_step_stopped (nbytes : Int) (h : s.running_ = false) :
    (sendThread_step s nbytes).send_queue_ = s.send_queue_ := by
  cases hpc : s.send_thread_ with
  | none => simp [sendThread_step, hpc]
  | some pc =>
    cases hq : s.send_queue_ <;> cases pc <;>
      simp [sendThread_step, hpc, hq, h]

theorem recvThread_run_fields (fuel : Nat) (ev : RxEvent) :
    (recvThread_run fuel s ev).send_queue_ = s.send_queue_ ∧
    (recvThread_run fuel s ev).running_ = s.running_ ∧
    (recvThread_run fuel s ev).socket_fd_ = s.socket_fd_ ∧
    (recvThread_run fuel s ev).open_fds = s.open_fds ∧
    (recvThread_run fuel s ev).wire = s.wire ∧
    (recvThread_run fuel s ev).send_thread_ = s.send_thread_ ∧
    (recvThread_run fuel s ev).recv_callback_ = s.recv_callback_ := by
  induction fuel generalizing s with
  | zero => simp [recvThread_run]
  | succ n ih =>
    unfold recvThread_run
    split_ifs
    · simp
    · have h1 := ih (recvThread_step s ev)
      have h2 := recvThread_step_fields s ev
      simp only [h2] at h1
      exact h1

theorem sendThread_run_fields (fuel : Nat) (nbytes : Int) :
    (sendThread_run fuel s nbytes).running_ = s.running_ ∧
    (sendThread_run fuel s nbytes).socket_fd_ = s.socket_fd_ ∧
    (sendThread_run fuel s nbytes).open_fds = s.open_fds ∧
    (sendThread_run fuel s nbytes).handled = s.handled ∧
    (sendThread_run fuel s nbytes).recv_thread_ = s.recv_thread_ ∧
    (sendThread_run fuel s nbytes).recv_callback_ = s.recv_callback_ := by
  induction fuel generalizing s with
  | zero => simp [sendThread_run]
  | succ n ih =>
    unfold sendThread_run
    split_ifs
    · simp
    · have h1 := ih (sendThread_step s nbytes)
      have h2 := sendThread_step_fields s nbytes
      simp only [h2] at h1
      exact h1

theorem sendThread_run_stopped (fuel : Nat) (nbytes : Int) (h : s.running_ = false) :
    (sendThread_run fuel s nbytes).send_queue_ = s.send_queue_ := by
  induction fuel generalizing s with
  | zero => simp [sendThread_run]
  | succ n ih =>
    unfold sendThread_run
    split_ifs
    · rfl
    · rw [ih (sendThread_step s nbytes) (by rw [(sendThread_step_fields s nbytes).1]; exact h)]
      exact sendThread_step_stopped s nbytes h

/-- With the flag cleared the receive thread returns within three steps. -/
theorem recvThread_run_returns (ev : RxEvent) (h : s.running_ = false)
    (hj : s.recv_thread_.isSome = true) :
    (recvThread_run 4 s ev).recv_thread_ = some RxPc.returned := by
  obtain ⟨pc, hpc⟩ := Option.isSome_iff_exists.mp hj
  cases pc <;>
    simp [recvThread_run, recvThread_step, hpc, h, recvThread_body_fields]

/-- With the flag cleared the send thread returns within five steps, unless
it is blocked in `send_cv_.wait` on an empty queue or about to be. -/
theorem sendThread_run_returns (nbytes : Int) (h : s.running_ = false)
    (hj : s.send_thread_.isSome = true) (hb : s.send_thread_ ≠ some TxPc.cv_blocked)
    (hw : lost_wakeup_window s = false) :
    (sendThread_run 6 s nbytes).send_thread_ = some TxPc.returned := by
  obtain ⟨pc, hpc⟩ := Option.isSome_iff_exists.mp hj
  cases pc <;> cases hq : s.send_queue_ <;>
    simp_all [sendThread_run, sendThread_step, lost_wakeup_window]

/-- With the flag cleared, a send thread that found the predicate false on an
empty queue and had not blocked yet blocks and never moves again. -/
theorem sendThread_run_blocks (nbytes : Int) (fuel : Nat)
    (hw : lost_wakeup_window s = true) :
    (sendThread_run (fuel + 1) s nbytes).send_thread_ = some TxPc.cv_blocked ∧
    sendThread_step (sendThread_run (fuel + 1) s nbytes) nbytes =
      sendThread_run (fuel + 1) s nbytes := by
  simp only [lost_wakeup_window, Bool.and_eq_true, decide_eq_true_eq,
    List.isEmpty_iff] at hw
  obtain ⟨hpc, hq⟩ := hw
  have key : ∀ (n : Nat) (t : SocketCanDriver), t.send_thread_ = some TxPc.cv_blocked →
      t.send_queue_ = [] → sendThread_run n t nbytes = t := by
    intro n
    induction n with
    | zero => intro t _ _; rfl
    | succ n ih =>
      intro t h1 h2
      have e : sendThread_step t nbytes = t := by simp [sendThread_step, h1, h2]
      simp only [sendThread_run, h1, e]
      simpa using ih t h1 h2
  have e1 : sendThread_step s nbytes = { s with send_thread_ := some TxPc.cv_blocked } := by
    simp [sendThread_step, hpc]
  have e2 : sendThread_run (fuel + 1) s nbytes =
      { s with send_thread_ := some TxPc.cv_blocked } := by
    simp only [sendThread_run, hpc, e1]
    simpa using key fuel { s with send_thread_ := some TxPc.cv_blocked } rfl hq
  rw [e2]
  exact ⟨rfl, by simp [sendThread_step, hq]⟩

theorem join_recv_fields (ev : RxEvent) (h : s.running_ = false)
    (hj : s.recv_thread_.isSome = true) :
    (join_recv s ev).recv_thread_ = none ∧
    (join_recv s ev).send_queue_ = s.send_queue_ ∧
    (join_recv s ev).running_ = s.running_ ∧
    (join_recv s ev).socket_fd_ = s.socket_fd_ ∧
    (join_recv s ev).open_fds = s.open_fds ∧
    (join_recv s ev).wire = s.wire ∧
    (join_recv s ev).send_thread_ = s.send_thread_ ∧
    (join_recv s ev).recv_callback_ = s.recv_callback_ := by
  have hr := recvThread_run_returns s ev h hj
  have hf := recvThread_run_fields s 4 ev
  simp [join_recv, hr, hf]

theorem join_send_fields (nbytes : Int) (h : s.running_ = false) :
    (join_send s nbytes).send_queue_ = s.send_queue_ ∧
    (join_send s nbytes).running_ = s.running_ ∧
    (join_send s nbytes).socket_fd_ = s.socket_fd_ ∧
    (join_send s nbytes).open_fds = s.open_fds ∧
    (join_send s nbytes).handled = s.handled ∧
    (join_send s nbytes).recv_thread_ = s.recv_thread_ ∧
    (join_send s nbytes).recv_callback_ = s.recv_callback_ := by
  have hf := sendThread_run_fields s 6 nbytes
  have hq := sendThread_run_stopped s 6 nbytes h
  unfold join_send
  simp only
  split_ifs <;> simp [hf, hq]

theorem join_send_thread (nbytes : Int) (h : s.running_ = false)
    (hj : s.send_thread_.isSome = true) (hb : s.send_thread_ ≠ some TxPc.cv_blocked) :
    (join_send s nbytes).send_thread_ =
      if lost_wakeup_window s then some TxPc.cv_blocked else none := by
  by_cases hw : lost_wakeup_window s = true
  · have hr := (sendThread_run_blocks s nbytes 5 hw).1
    simp [join_send, hr, hw]
  · have hw : lost_wakeup_window s = false := by simpa using hw
    have hr := sendThread_run_returns s nbytes h hj hb hw
    simp [join_send, hr, hw]

theorem stop_enter_fields :
    (stop_enter s).running_ = false ∧
    (stop_enter s).recv_thread_ = s.recv_thread_ ∧
    (stop_enter s).send_queue_ = s.send_queue_ ∧
    (stop_enter s).socket_fd_ = s.socket_fd_ ∧
    (stop_enter s).open_fds = s.open_fds ∧
    (stop_enter s).recv_callback_ = s.recv_callback_ ∧
    (stop_enter s).wire = s.wire ∧
    (stop_enter s).handled = s.handled ∧
    (stop_enter s).send_thread_ ≠ some TxPc.cv_blocked ∧
    (stop_enter s).send_thread_.isSome = s.send_thread_.isSome ∧
    lost_wakeup_window (stop_enter s) = lost_wakeup_window s := by
  unfold stop_enter notify_all
  by_cases h : s.send_thread_ = some TxPc.cv_blocked
  · simp [h, lost_wakeup_window]
  · simp [h, lost_wakeup_window]

/-- What a call of `stop` does to every member, whether or not it returns: the
flag is cleared, the receive thread is joined, queue, descriptor and callback
are untouched, and the send thread is joined unless the notification was lost,
in which case it is left blocked in `send_cv_.wait`. -/
theorem stop_run_fields (ev : RxEvent) (nbytes : Int) :
    (stop_run s ev nbytes).running_ = false ∧
    (stop_run s ev nbytes).recv_thread_ = none ∧
    (stop_run s ev nbytes).send_thread_ =
      (if lost_wakeup_window s then some TxPc.cv_blocked else none) ∧
    (stop_run s ev nbytes).send_queue_ = s.send_queue_ ∧
    (stop_run s ev nbytes).socket_fd_ = s.socket_fd_ ∧
    (stop_run s ev nbytes).open_fds = s.open_fds ∧
    (stop_run s ev nbytes).recv_callback_ = s.recv_callback_ := by
  obtain ⟨e1, e2, e3, e4, e5, e6, _, _, e9, e10, e11⟩ := stop_enter_fields s
  generalize hs1 : stop_enter s = s1 at *
  have hstep : stop_run s ev nbytes =
      (if (if s1.recv_thread_.isSome then join_recv s1 ev else s1).send_thread_.isSome
        then join_send (if s1.recv_thread_.isSome then join_recv s1 ev else s1) nbytes
        else (if s1.recv_thread_.isSome then join_recv s1 ev else s1)) := by
    simp [stop_run, hs1]
  rw [hstep]
  generalize hs2 : (if s1.recv_thread_.isSome then join_recv s1 ev else s1) = s2
  have h2 : s2.recv_thread_ = none ∧ s2.send_queue_ = s1.send_queue_ ∧ s2.running_ = false ∧
      s2.socket_fd_ = s1.socket_fd_ ∧ s2.open_fds = s1.open_fds ∧
      s2.send_thread_ = s1.send_thread_ ∧ s2.recv_callback_ = s1.recv_callback_ := by
    by_cases hr : s1.recv_thread_.isSome = true
    · have h1 := join_recv_fields s1 ev e1 hr
      rw [← hs2, if_pos hr]
      exact ⟨h1.1, h1.2.1, h1.2.2.1.trans e1, h1.2.2.2.1, h1.2.2.2.2.1, h1.2.2.2.2.2.2.1,
        h1.2.2.2.2.2.2.2⟩
    · rw [← hs2, if_neg hr]
      exact ⟨by simpa using hr, rfl, e1, rfl, rfl, rfl, rfl⟩
  obtain ⟨g1, g2, g3, g4, g5, g6, g7⟩ := h2
  have hw2 : lost_wakeup_window s2 = lost_wakeup_window s := by
    rw [← e11]; simp [lost_wakeup_window, g2, g6]
  by_cases hs : s2.send_thread_.isSome = true
  · obtain ⟨j1, j2, j3, j4, _, j6, j7⟩ := join_send_fields s2 nbytes g3
    have h4 := join_send_thread s2 nbytes g3 hs (by rw [g6]; exact e9)
    rw [if_pos hs]
    refine ⟨j2.trans g3, j6.trans g1, ?_, ?_, ?_, ?_, ?_⟩
    · rw [h4, hw2]
    · rw [j1, g2, e3]
    · rw [j3, g4, e4]
    · rw [j4, g5, e5]
    · rw [j7, g7, e6]
  · rw [if_neg hs]
    have hnone : s2.send_thread_ = none := by simpa using hs
    have hwf : lost_wakeup_window s = false := by
      rw [← hw2]; simp [lost_wakeup_window, hnone]
    refine ⟨g3, g1, ?_, ?_, ?_, ?_, ?_⟩
    · rw [hnone, hwf]; rfl
    · rw [g2, e3]
    · rw [g4, e4]
    · rw [g5, e5]
    · rw [g7, e6]

/-- A call of `stop` returns exactly when the notification is not lost, and it
returns in the state `stop_run` describes. -/
theorem stop_eq (ev : RxEvent) (nbytes : Int) :
    stop s ev nbytes =
      if lost_wakeup_window s then none else some (stop_run s ev nbytes) := by
  obtain ⟨_, h2, h3, _⟩ := stop_run_fields s ev nbytes
  unfold stop
  simp only [h2, h3]
  by_cases hw : lost_wakeup_window s = true
  · simp [hw]
  · simp [hw]

theorem stop_some (ev : RxEvent) (nbytes : Int) (t : SocketCanDriver)
    (h : stop s ev nbytes = some t) :
    lost_wakeup_window s = false ∧ t = stop_run s ev nbytes ∧
    t.running_ = false ∧ t.recv_thread_ = none ∧ t.send_thread_ = none ∧
    t.send_queue_ = s.send_queue_ ∧ t.socket_fd_ = s.socket_fd_ ∧
    t.open_fds = s.open_fds ∧ t.recv_callback_ = s.recv_callback_ := by
  rw [stop_eq] at h
  by_cases hw : lost_wakeup_window s = true
  · simp [hw] at h
  · have hw : lost_wakeup_window s = false := by simpa using hw
    simp only [hw, Bool.false_eq_true, if_false, Option.some.injEq] at h
    obtain ⟨f1, f2, f3, f4, f5, f6, f7⟩ := stop_run_fields s ev nbytes
    rw [hw] at f3
    subst h
    exact ⟨hw, rfl, f1, f2, f3, f4, f5, f6, f7⟩

/-- On a driver that is not running and owns no thread, `stop` returns and
changes nothing. -/
theorem stop_idle (ev : RxEvent) (nbytes : Int) (h : s.running_ = false)
    (hr : s.recv_thread_ = none) (hs : s.send_thread_ = none) :
    stop s ev nbytes = some s ∧ stop_run s ev nbytes = s := by
  have e : stop_run s ev nbytes = s := by
    cases s
    simp_all [stop_run, stop_enter, notify_all]
  refine ⟨?_, e⟩
  rw [stop_eq, e]
  simp [lost_wakeup_window, hs]

theorem send_fields (frame : can_frame) :
    (send s frame).2.running_ = s.running_ ∧
    (send s frame).2.socket_fd_ = s.socket_fd_ ∧
    (send s frame).2.open_fds = s.open_fds ∧
    (send s frame).2.recv_thread_ = s.recv_thread_ ∧
    (send s frame).2.send_thread_ = s.send_thread_ ∧
    (send s frame).2.wire = s.wire ∧
    (send s frame).2.handled = s.handled ∧
    (send s frame).2.recv_callback_ = s.recv_callback_ := by
  unfold send
  split_ifs <;> simp

theorem send_queue_le (frame : can_frame) (h : s.send_queue_.length ≤ MAX_QUEUE_SIZE) :
    (send s frame).2.send_queue_.length ≤ MAX_QUEUE_SIZE := by
  unfold send
  split_ifs with hc
  · exact h
  · simp only [Bool.or_eq_true, Bool.not_eq_true', decide_eq_true_eq, not_or, not_le] at hc
    simp only [List.length_append, List.length_singleton]
    omega

theorem start_of_running (env : StartEnv) (h : s.running_ = true) :
    start s env = (true, s) := by
  simp [start, h]

theorem start_of_socket_failure (env : StartEnv) (h : s.running_ = false)
    (h1 : env.socket_ret < 0) :
    start s env =
      (false, { s with
                socket_fd_ := env.socket_ret
                open_fds := open_fd s.open_fds env.socket_ret
                cerr := s.cerr ++ [Diag.creating_socket] }) := by
  simp [start, h, h1]

theorem start_of_ioctl_failure (env : StartEnv) (h : s.running_ = false)
    (h1 : ¬ env.socket_ret < 0) (h2 : env.ioctl_ret < 0) :
    start s env =
      (false, { s with
                socket_fd_ := -1
                open_fds := close_fd (open_fd s.open_fds env.socket_ret) env.socket_ret
                cerr := s.cerr ++ [Diag.getting_interface_index] }) := by
  simp [start, start_rollback, h, h1, h2]

theorem start_of_bind_failure (env : StartEnv) (h : s.running_ = false)
    (h1 : ¬ env.socket_ret < 0) (h2 : ¬ env.ioctl_ret < 0) (h3 : env.bind_ret < 0) :
    start s env =
      (false, { s with
                socket_fd_ := -1
                open_fds := close_fd (open_fd s.open_fds env.socket_ret) env.socket_ret
                cerr := s.cerr ++ [Diag.binding_socket] }) := by
  simp [start, start_rollback, h, h1, h2, h3]

theorem start_of_fcntl_failure (env : StartEnv) (h : s.running_ = false)
    (h1 : ¬ env.socket_ret < 0) (h2 : ¬ env.ioctl_ret < 0) (h3 : ¬ env.bind_ret < 0)
    (h4 : env.getfl_ret = -1 ∨ env.setfl_ret = -1) :
    start s env =
      (false, { s with
                socket_fd_ := -1
                open_fds := close_fd (open_fd s.open_fds env.socket_ret) env.socket_ret
                cerr := s.cerr ++ [Diag.setting_non_blocking] }) := by
  simp [start, start_rollback, h, h1, h2, h3, h4]

theorem start_of_success (env : StartEnv) (h : s.running_ = false)
    (h1 : ¬ env.socket_ret < 0) (h2 : ¬ env.ioctl_ret < 0) (h3 : ¬ env.bind_ret < 0)
    (h4 : ¬ (env.getfl_ret = -1 ∨ env.setfl_ret = -1)) :
    start s env =
      (true, { s with
               socket_fd_ := env.socket_ret
               open_fds := open_fd s.open_fds env.socket_ret
               running_ := true
               recv_thread_ := some RxPc.loop_head
               send_thread_ := some TxPc.loop_head }) := by
  simp [start, h, h1, h2, h3, h4]

theorem start_fields (env : StartEnv) :
    (start s env).2.send_queue_ = s.send_queue_ ∧
    (start s env).2.wire = s.wire ∧
    (start s env).2.handled = s.handled ∧
    (start s env).2.recv_callback_ = s.recv_callback_ := by
  by_cases h : s.running_ = true
  · simp [start_of_running s env h]
  · have h : s.running_ = false := by simpa using h
    by_cases h1 : env.socket_ret < 0
    · simp [start_of_socket_failure s env h h1]
    · by_cases h2 : env.ioctl_ret < 0
      · simp [start_of_ioctl_failure s env h h1 h2]
      · by_cases h3 : env.bind_ret < 0
        · simp [start_of_bind_failure s env h h1 h2 h3]
        · by_cases h4 : env.getfl_ret = -1 ∨ env.setfl_ret = -1
          · simp [start_of_fcntl_failure s env h h1 h2 h3 h4]
          · simp [start_of_success s env h h1 h2 h3 h4]

theorem mem_close_fd (fds : List Int) (fd x : Int) :
    x ∈ close_fd fds fd ↔ x ∈ fds ∧ x ≠ fd := by
  simp [close_fd]

theorem mem_open_fd (fds : List Int) (ret x : Int) (h : x ∈ open_fd fds ret) :
    x ∈ fds ∨ (x = ret ∧ 0 ≤ ret) := by
  unfold open_fd at h
  split_ifs at h with hr
  · exact Or.inl h
  · rcases List.mem_cons.mp h with e | e
    · exact Or.inr ⟨e, not_lt.mp hr⟩
    · exact Or.inl e

theorem rollback_nonneg (fds : List Int) (ret : Int) (hpos : ∀ fd ∈ fds, 0 ≤ fd) :
    ∀ fd ∈ close_fd (open_fd fds ret) ret, 0 ≤ fd := by
  intro fd hmem
  rw [mem_close_fd] at hmem
  rcases mem_open_fd fds ret fd hmem.1 with e | e
  · exact hpos fd e
  · exact absurd e.1 hmem.2

theorem send_true_iff (frame : can_frame) :
    (send s frame).1 = true ↔ (s.running_ = true ∧ s.send_queue_.length < MAX_QUEUE_SIZE) := by
  unfold send
  split_ifs with hc
  · simp only [Bool.or_eq_true, Bool.not_eq_true', decide_eq_true_eq] at hc
    constructor
    · intro h; exact absurd h (by simp)
    · rintro ⟨hr, hl⟩
      rcases hc with hc | hc
      · rw [hr] at hc; exact absurd hc (by simp)
      · omega
  · simp only [Bool.or_eq_true, Bool.not_eq_true', decide_eq_true_eq, not_or, not_le] at hc
    simp only [true_iff]
    exact ⟨by simpa using hc.1, hc.2⟩

theorem send_of_true (frame : can_frame) (h : (send s frame).1 = true) :
    (send s frame).2 = { s with send_queue_ := s.send_queue_ ++ [frame] } := by
  obtain ⟨hr, hl⟩ := (send_true_iff s frame).mp h
  simp [send, hr, not_le.mpr hl]

theorem send_of_false (frame : can_frame) (h : (send s frame).1 = false) :
    (send s frame).2 = s := by
  by_cases hc : (!s.running_ || decide (s.send_queue_.length ≥ MAX_QUEUE_SIZE)) = true
  · simp only [send, hc, if_true]
  · simp only [send, hc] at h
    exact absurd h (by simp)

theorem send_of_stopped (frame : can_frame) (h : s.running_ = false) :
    send s frame = (false, s) := by
  simp [send, h]

theorem send_of_full (frame : can_frame) (h : MAX_QUEUE_SIZE ≤ s.send_queue_.length) :
    send s frame = (false, s) := by
  simp [send, h]

theorem not_stopping_threads (h : stopping s = false) (hr : s.running_ = false) :
    s.recv_thread_ = none ∧ s.send_thread_ = none := by
  simp only [stopping, hr, Bool.not_false, Bool.true_and, Bool.or_eq_false_iff] at h
  exact ⟨by simpa using h.1, by simpa using h.2⟩

theorem start_preserves_Inv (env : StartEnv) (h : Inv s) (hns : stopping s = false) :
    Inv (start s env).2 := by
  obtain ⟨hq, _, hfd, hpos⟩ := h
  have hopen : ∀ fd ∈ open_fd s.open_fds env.socket_ret, 0 ≤ fd := by
    intro fd hmem
    rcases mem_open_fd _ _ fd hmem with e | e
    · exact hpos fd e
    · exact e.1 ▸ e.2
  by_cases h : s.running_ = true
  · rw [start_of_running s env h]
    exact ⟨hq, fun hr => absurd (h.symm.trans hr) (by simp), hfd, hpos⟩
  · have h : s.running_ = false := by simpa using h
    have ht : s.recv_thread_ = none ∧ (s.send_thread_ = none ∨
        (s.send_thread_ = some TxPc.cv_blocked ∧ s.send_queue_ = [])) :=
      ⟨(not_stopping_threads s hns h).1, Or.inl (not_stopping_threads s hns h).2⟩
    by_cases h1 : env.socket_ret < 0
    · rw [start_of_socket_failure s env h h1]
      exact ⟨hq, fun _ => ht, by simp [h], hopen⟩
    · by_cases h2 : env.ioctl_ret < 0
      · rw [start_of_ioctl_failure s env h h1 h2]
        exact ⟨hq, fun _ => ht, by simp [h], rollback_nonneg _ _ hpos⟩
      · by_cases h3 : env.bind_ret < 0
        · rw [start_of_bind_failure s env h h1 h2 h3]
          exact ⟨hq, fun _ => ht, by simp [h], rollback_nonneg _ _ hpos⟩
        · by_cases h4 : env.getfl_ret = -1 ∨ env.setfl_ret = -1
          · rw [start_of_fcntl_failure s env h h1 h2 h3 h4]
            exact ⟨hq, fun _ => ht, by simp [h], rollback_nonneg _ _ hpos⟩
          · rw [start_of_success s env h h1 h2 h3 h4]
            exact ⟨hq, by simp, by simp [open_fd, h1], hopen⟩

theorem step_preserves_Inv (a : Action) (h : Inv s) : Inv (step s a) := by
  cases a with
  | start env =>
    simp only [step]
    split_ifs with hst
    · exact h
    · exact start_preserves_Inv s env h (by simpa using hst)
  | stop ev nbytes =>
    simp only [step]
    split_ifs with hst
    · exact h
    · obtain ⟨hq, _, _, hpos⟩ := h
      obtain ⟨f1, f2, f3, f4, _, f6, _⟩ := stop_run_fields s ev nbytes
      refine ⟨?_, ?_, ?_, ?_⟩
      · rw [f4]; exact hq
      · intro _
        refine ⟨f2, ?_⟩
        by_cases hw : lost_wakeup_window s = true
        · right
          rw [f3, f4]
          simp only [hw, if_true, true_and]
          simp only [lost_wakeup_window, Bool.and_eq_true, List.isEmpty_iff] at hw
          exact hw.2
        · left
          rw [f3]; simp [hw]
      · intro hr; rw [f1] at hr; exact absurd hr (by simp)
      · rw [f6]; exact hpos
  | send frame =>
    obtain ⟨hq, ht, hfd, hpos⟩ := h
    have hf := send_fields s frame
    refine ⟨send_queue_le s frame hq, ?_, ?_, ?_⟩
    · simp only [step]
      intro hr
      rw [hf.1] at hr
      rw [send_of_stopped s frame hr]
      exact ht hr
    · simp only [step]; rw [hf.1, hf.2.1, hf.2.2.1]; exact hfd
    · simp only [step]; rw [hf.2.2.1]; exact hpos
  | recv_step ev =>
    obtain ⟨hq, ht, hfd, hpos⟩ := h
    have hf := recvThread_step_fields s ev
    refine ⟨?_, ?_, ?_, ?_⟩
    · simp only [step]; rw [hf.1]; exact hq
    · simp only [step]
      intro hr
      rw [hf.2.1] at hr
      have e : recvThread_step s ev = s := by simp [recvThread_step, (ht hr).1]
      rw [e]; exact ht hr
    · simp only [step]; rw [hf.2.1, hf.2.2.1, hf.2.2.2.1]; exact hfd
    · simp only [step]; rw [hf.2.2.2.1]; exact hpos
  | send_step nbytes =>
    obtain ⟨hq, ht, hfd, hpos⟩ := h
    have hf := sendThread_step_fields s nbytes
    refine ⟨?_, ?_, ?_, ?_⟩
    · simp only [step]; exact le_trans (sendThread_step_queue_le s nbytes) hq
    · simp only [step]
      intro hr
      rw [hf.1] at hr
      have e : sendThread_step s nbytes = s := by
        rcases (ht hr).2 with hn | ⟨hb, hqe⟩
        · simp [sendThread_step, hn]
        · simp [sendThread_step, hb, hqe]
      rw [e]; exact ht hr
    · simp only [step]; rw [hf.1, hf.2.1, hf.2.2.1]; exact hfd
    · simp only [step]; rw [hf.2.2.1]; exact hpos

theorem run_preserves_Inv (acts : List Action) (h : Inv s) : Inv (run s acts) := by
  induction acts generalizing s with
  | nil => exact h
  | cons a acts ih => exact ih (step s a) (step_preserves_Inv s a h)

theorem construct_Inv (name : String) (cb : Bool) : Inv (construct name cb) := by
  refine ⟨by simp [construct], by simp [construct], by simp [construct], by simp [construct]⟩

theorem reachable_Inv (h : Reachable s) : Inv s := by
  obtain ⟨name, cb, acts, rfl, _⟩ := h
  exact run_preserves_Inv _ acts (construct_Inv name cb)

/-- Once a call of `stop` is left waiting in `join`, no action changes the
state any more: the call never returns. -/
theorem stopping_is_final (a : Action) (h : Inv s) (hst : stopping s = true) :
    step s a = s := by
  have hr : s.running_ = false := by
    simp only [stopping, Bool.and_eq_true, Bool.not_eq_true'] at hst
    exact hst.1
  obtain ⟨hrecv, hsend⟩ := h.2.1 hr
  cases a with
  | start env => simp [step, hst]
  | stop ev nbytes => simp [step, hst]
  | send frame => simp only [step]; rw [send_of_stopped s frame hr]
  | recv_step ev => simp [step, recvThread_step, hrecv]
  | send_step nbytes =>
    rcases hsend with hn | ⟨hb, hqe⟩
    · simp [step, sendThread_step, hn]
    · simp [step, sendThread_step, hb, hqe]

theorem send_all_accepted (frames : List can_frame) (hr : s.running_ = true)
    (hok : ∀ b ∈ (send_all s frames).1, b = true) :
    (send_all s frames).2.send_queue_ = s.send_queue_ ++ frames ∧
    (send_all s frames).2.running_ = true ∧
    (frames ≠ [] → (s.send_queue_ ++ frames).length ≤ MAX_QUEUE_SIZE) := by
  induction frames generalizing s with
  | nil => simp [send_all, hr]
  | cons f rest ih =>
    have h1 : (send s f).1 = true := hok _ (by simp [send_all])
    have hq := send_of_true s f h1
    have hlt := ((send_true_iff s f).mp h1).2
    have hr1 : (send s f).2.running_ = true := by rw [(send_fields s f).1]; exact hr
    have hok1 : ∀ b ∈ (send_all (send s f).2 rest).1, b = true := by
      intro b hb; exact hok b (by simp [send_all, hb])
    obtain ⟨e1, e2, e3⟩ := ih (send s f).2 hr1 hok1
    have hq2 : (send s f).2.send_queue_ = s.send_queue_ ++ [f] := by rw [hq]
    refine ⟨?_, ?_, ?_⟩
    · simp only [send_all]; rw [e1, hq2]; simp
    · simp only [send_all]; exact e2
    · intro _
      by_cases hrest : rest = []
      · subst hrest; simp only [List.length_append, List.length_singleton]; omega
      · have := e3 hrest
        rw [hq2] at this
        simpa using this

theorem send_all_room (frames : List can_frame) (hr : s.running_ = true)
    (hroom : s.send_queue_.length + frames.length ≤ MAX_QUEUE_SIZE) :
    ∀ b ∈ (send_all s frames).1, b = true := by
  induction frames generalizing s with
  | nil => simp [send_all]
  | cons f rest ih =>
    simp only [List.length_cons] at hroom
    have h1 : (send s f).1 = true := (send_true_iff s f).mpr ⟨hr, by omega⟩
    have hq : (send s f).2.send_queue_ = s.send_queue_ ++ [f] := by rw [send_of_true s f h1]
    have hr1 : (send s f).2.running_ = true := by rw [(send_fields s f).1]; exact hr
    have := ih (send s f).2 hr1 (by rw [hq]; simp only [List.length_append, List.length_singleton]; omega)
    intro b hb
    simp only [send_all, List.mem_cons] at hb
    rcases hb with e | e
    · rw [e]; exact h1
    · exact this b e

theorem accepted_cons (a : Action) (acts : List Action) :
    accepted s (a :: acts) = accepted s [a] ++ accepted (step s a) acts := by
  cases a with
  | send frame =>
    by_cases h : (send s frame).1 = true
    · simp [accepted, step, h]
    · simp [accepted, step, h]
  | start env => simp [accepted]
  | stop ev nbytes => simp [accepted]
  | recv_step ev => simp [accepted]
  | send_step nbytes => simp [accepted]

theorem pending_of_thread (h : s.send_thread_ = t.send_thread_) : pending s = pending t := by
  unfold pending; rw [h]

/-- One action keeps the balance: frames handed to `write`, the frame in
flight and the queue together are what was there plus what `send` accepted. -/
theorem attempted_step (a : Action) (ha : a.is_send_or_loop_step = true) :
    attempted (step s a) ++ pending (step s a) ++ (step s a).send_queue_ =
      attempted s ++ pending s ++ s.send_queue_ ++ accepted s [a] := by
  cases a with
  | start env => simp [Action.is_send_or_loop_step] at ha
  | stop ev nbytes => simp [Action.is_send_or_loop_step] at ha
  | send frame =>
    have hf := send_fields s frame
    have hp : pending (send s frame).2 = pending s := pending_of_thread _ hf.2.2.2.2.1
    by_cases h : (send s frame).1 = true
    · have hq : (send s frame).2.send_queue_ = s.send_queue_ ++ [frame] := by
        rw [send_of_true s frame h]
      simp [accepted, step, h, hp, hq, attempted, hf.2.2.2.2.2.1]
    · have h : (send s frame).1 = false := by simpa using h
      simp [accepted, step, h, send_of_false s frame h]
  | recv_step ev =>
    have hf := recvThread_step_fields s ev
    have hp : pending (recvThread_step s ev) = pending s := pending_of_thread _ hf.2.2.2.2.2.1
    simp [accepted, step, hp, attempted, hf.1, hf.2.2.2.2.1]
  | send_step nbytes =>
    simp only [accepted, step, List.append_nil]
    cases hpc : s.send_thread_ with
    | none => simp [sendThread_step, hpc]
    | some pc =>
      cases hq : s.send_queue_ <;> cases hr : s.running_ <;> cases pc <;>
        simp [sendThread_step, hpc, hq, hr, pending, attempted]

/-- The same balance for the frames whose `write` returned the full size, when
the action is not a failing `write`. -/
theorem written_step (a : Action) (ha : a.is_send_or_loop_step = true)
    (hw : a.write_succeeds = true) :
    written (step s a) ++ pending (step s a) ++ (step s a).send_queue_ =
      written s ++ pending s ++ s.send_queue_ ++ accepted s [a] := by
  cases a with
  | start env => simp [Action.is_send_or_loop_step] at ha
  | stop ev nbytes => simp [Action.is_send_or_loop_step] at ha
  | send frame =>
    have hf := send_fields s frame
    have hp : pending (send s frame).2 = pending s := pending_of_thread _ hf.2.2.2.2.1
    by_cases h : (send s frame).1 = true
    · have hq : (send s frame).2.send_queue_ = s.send_queue_ ++ [frame] := by
        rw [send_of_true s frame h]
      simp [accepted, step, h, hp, hq, written, hf.2.2.2.2.2.1]
    · have h : (send s frame).1 = false := by simpa using h
      simp [accepted, step, h, send_of_false s frame h]
  | recv_step ev =>
    have hf := recvThread_step_fields s ev
    have hp : pending (recvThread_step s ev) = pending s := pending_of_thread _ hf.2.2.2.2.2.1
    simp [accepted, step, hp, written, hf.1, hf.2.2.2.2.1]
  | send_step nbytes =>
    have hn : nbytes = sizeof_can_frame := by simpa [Action.write_succeeds] using hw
    simp only [accepted, step, List.append_nil]
    cases hpc : s.send_thread_ with
    | none => simp [sendThread_step, hpc]
    | some pc =>
      cases hq : s.send_queue_ <;> cases hr : s.running_ <;> cases pc <;>
        simp [sendThread_step, hpc, hq, hr, pending, written, hn]

theorem attempted_run (acts : List Action)
    (ha : ∀ a ∈ acts, a.is_send_or_loop_step = true) :
    attempted (run s acts) ++ pending (run s acts) ++ (run s acts).send_queue_ =
      attempted s ++ pending s ++ s.send_queue_ ++ accepted s acts := by
  induction acts generalizing s with
  | nil => simp [run, accepted]
  | cons a acts ih =>
    have h1 := ih (step s a) (fun b hb => ha b (List.mem_cons_of_mem _ hb))
    have h2 := attempted_step s a (ha a (List.mem_cons_self _ _))
    have e : run s (a :: acts) = run (step s a) acts := rfl
    rw [e, h1, h2, accepted_cons s a acts]
    simp

theorem written_run (acts : List Action)
    (ha : ∀ a ∈ acts, a.is_send_or_loop_step = true)
    (hw : ∀ a ∈ acts, a.write_succeeds = true) :
    written (run s acts) ++ pending (run s acts) ++ (run s acts).send_queue_ =
      written s ++ pending s ++ s.send_queue_ ++ accepted s acts := by
  induction acts generalizing s with
  | nil => simp [run, accepted]
  | cons a acts ih =>
    have h1 := ih (step s a) (fun b hb => ha b (List.mem_cons_of_mem _ hb))
      (fun b hb => hw b (List.mem_cons_of_mem _ hb))
    have h2 := written_step s a (ha a (List.mem_cons_self _ _)) (hw a (List.mem_cons_self _ _))
    have e : run s (a :: acts) = run (step s a) acts := rfl
    rw [e, h1, h2, accepted_cons s a acts]
    simp

theorem recvThread_body_handled (ev : RxEvent) (hcb : s.recv_callback_ = true) :
    (recvThread_body s ev).handled =
      s.handled ++ (if ev.full_frame = true then [ev.frame] else []) := by
  unfold recvThread_body RxEvent.full_frame sizeof_can_frame
  by_cases h1 : 0 < ev.poll_ret <;> by_cases h2 : ev.pollin = true <;>
    by_cases h3 : ev.nbytes = 16 <;> by_cases h4 : ev.nbytes < 0 ∧ ev.would_block = false <;>
    by_cases h5 : ev.poll_ret < 0 <;> simp [h1, h2, h3, h4, h5, hcb]

/-- One turn of the receive loop on a running driver: the handler gets the
frame when the read was whole, and the thread is back at the loop test. -/
theorem recvThread_turn_running (ev : RxEvent) (hrun : s.running_ = true)
    (hcb : s.recv_callback_ = true) (hpc : s.recv_thread_ = some RxPc.loop_head) :
    (recvThread_turn s ev).handled =
      s.handled ++ (if ev.full_frame = true then [ev.frame] else []) ∧
    (recvThread_turn s ev).running_ = true ∧
    (recvThread_turn s ev).recv_callback_ = true ∧
    (recvThread_turn s ev).recv_thread_ = some RxPc.loop_head := by
  have e1 : recvThread_step s ev = { s with recv_thread_ := some RxPc.iteration } := by
    simp [recvThread_step, hpc, hrun]
  have hb := recvThread_body_fields { s with recv_thread_ := some RxPc.iteration } ev
  have hh := recvThread_body_handled { s with recv_thread_ := some RxPc.iteration } ev hcb
  unfold recvThread_turn
  rw [e1]
  refine ⟨?_, ?_, ?_, ?_⟩
  · simp only [recvThread_step]; exact hh
  · simp only [recvThread_step]; rw [hb.2.1]; exact hrun
  · simp only [recvThread_step]; rw [hb.2.2.2.2.2.2.2]; exact hcb
  · simp only [recvThread_step]

theorem recvThread_loop_running (evs : List RxEvent) (hrun : s.running_ = true)
    (hcb : s.recv_callback_ = true) (hpc : s.recv_thread_ = some RxPc.loop_head) :
    (recvThread_loop s evs).handled = s.handled ++ delivered evs ∧
    (recvThread_loop s evs).running_ = true ∧
    (recvThread_loop s evs).recv_thread_ = some RxPc.loop_head := by
  induction evs generalizing s with
  | nil => simp [recvThread_loop, delivered, hrun, hpc]
  | cons ev evs ih =>
    obtain ⟨h1, h2, h3, h4⟩ := recvThread_turn_running s ev hrun hcb hpc
    obtain ⟨i1, i2, i3⟩ := ih (recvThread_turn s ev) h2 h3 h4
    have e : recvThread_loop s (ev :: evs) = recvThread_loop (recvThread_turn s ev) evs := rfl
    rw [e]
    refine ⟨?_, i2, i3⟩
    rw [i1, h1]
    by_cases hf : ev.full_frame = true
    · simp [delivered, List.filter_cons, hf]
    · simp [delivered, List.filter_cons, hf]

/-- Progress of a live send thread on a running driver: it stays alive, a
quiet state stays quiet, and otherwise the step brings the end nearer. -/
theorem sendThread_step_progress (nbytes : Int) (hrun : s.running_ = true)
    (halive : send_thread_alive s = true) :
    (sendThread_step s nbytes).running_ = true ∧
    send_thread_alive (sendThread_step s nbytes) = true ∧
    (quiet s → quiet (sendThread_step s nbytes)) ∧
    (¬ quiet s → drain_steps (sendThread_step s nbytes) < drain_steps s) := by
  refine ⟨by rw [(sendThread_step_fields s nbytes).1]; exact hrun, ?_⟩
  cases hpc : s.send_thread_ with
  | none => simp [send_thread_alive, hpc] at halive
  | some pc =>
    cases hq : s.send_queue_ <;> cases pc <;>
      simp_all [sendThread_step, send_thread_alive, quiet, pending, drain_steps]
    omega

theorem drain_steps_le : drain_steps s ≤ 2 * s.send_queue_.length + 3 := by
  unfold drain_steps
  split <;> omega

theorem run_send_steps_succ (n : Nat) (nbytes : Int) :
    run s (List.replicate (n + 1) (Action.send_step nbytes)) =
      run (sendThread_step s nbytes) (List.replicate n (Action.send_step nbytes)) := rfl

theorem quiet_stable (n : Nat) (nbytes : Int) (hrun : s.running_ = true)
    (halive : send_thread_alive s = true) (hq : quiet s) :
    quiet (run s (List.replicate n (Action.send_step nbytes))) := by
  induction n generalizing s with
  | zero => exact hq
  | succ n ih =>
    obtain ⟨p1, p2, p3, _⟩ := sendThread_step_progress s nbytes hrun halive
    rw [run_send_steps_succ]
    exact ih (sendThread_step s nbytes) p1 p2 (p3 hq)

/-- Left alone for `drain_steps` steps or more, a live send thread on a running
driver has emptied the queue and has no frame in flight. -/
theorem sendThread_drains (n : Nat) (nbytes : Int) (hrun : s.running_ = true)
    (halive : send_thread_alive s = true) (hn : drain_steps s ≤ n) :
    quiet (run s (List.replicate n (Action.send_step nbytes))) := by
  induction n generalizing s with
  | zero =>
    by_contra hq
    have := (sendThread_step_progress s nbytes hrun halive).2.2.2 hq
    omega
  | succ n ih =>
    by_cases hq : quiet s
    · exact quiet_stable s (n + 1) nbytes hrun halive hq
    · obtain ⟨p1, p2, _, p4⟩ := sendThread_step_progress s nbytes hrun halive
      rw [run_send_steps_succ]
      have := p4 hq
      exact ih (sendThread_step s nbytes) p1 p2 (by omega)

theorem accepted_send_steps (n : Nat) (nbytes : Int) :
    accepted s (List.replicate n (Action.send_step nbytes)) = [] := by
  induction n generalizing s with
  | zero => rfl
  | succ n ih =>
    have e : accepted s (List.replicate (n + 1) (Action.send_step nbytes)) =
        accepted (step s (Action.send_step nbytes))
          (List.replicate n (Action.send_step nbytes)) := by
      simp [List.replicate_succ, accepted]
    rw [e]
    exact ih _

/-- Calls of `send` and loop steps keep a running driver running and a live
send thread alive. -/
theorem alive_run (acts : List Action) (ha : ∀ a ∈ acts, a.is_send_or_loop_step = true)
    (hrun : s.running_ = true) (halive : send_thread_alive s = true) :
    (run s acts).running_ = true ∧ send_thread_alive (run s acts) = true := by
  induction acts generalizing s with
  | nil => exact ⟨hrun, halive⟩
  | cons a acts ih =>
    have e : run s (a :: acts) = run (step s a) acts := rfl
    rw [e]
    have ha1 := ha a (List.mem_cons_self _ _)
    apply ih (step s a) (fun b hb => ha b (List.mem_cons_of_mem _ hb))
    · cases a with
      | start env => simp [Action.is_send_or_loop_step] at ha1
      | stop ev nbytes => simp [Action.is_send_or_loop_step] at ha1
      | send frame => simp only [step]; rw [(send_fields s frame).1]; exact hrun
      | recv_step ev => simp only [step]; rw [(recvThread_step_fields s ev).2.1]; exact hrun
      | send_step nbytes => exact (sendThread_step_progress s nbytes hrun halive).1
    · cases a with
      | start env => simp [Action.is_send_or_loop_step] at ha1
      | stop ev nbytes => simp [Action.is_send_or_loop_step] at ha1
      | send frame =>
        simp only [step, send_thread_alive]
        rw [(send_fields s frame).2.2.2.2.1]; exact halive
      | recv_step ev =>
        simp only [step, send_thread_alive]
        rw [(recvThread_step_fields s ev).2.2.2.2.2.1]; exact halive
      | send_step nbytes => exact (sendThread_step_progress s nbytes hrun halive).2.1

/-! ### With the flag false the loops start nothing new -/

end frame_lemmas

/-! ## The claims -/

/-- C1. `send` returns `true` exactly when the driver is running and the send
queue holds fewer than 10,000 frames; and when it returns `true` the new state
is the old one with that frame appended at the tail of the queue, nothing else
being added, removed, reordered or changed. -/
theorem send_accepts_iff_running_and_room (s : SocketCanDriver) (frame : can_frame) :
    ((send s frame).1 = true ↔ (s.running_ = true ∧ s.send_queue_.length < 10000)) ∧
    ((send s frame).1 = true →
      (send s frame).2.send_queue_ = s.send_queue_ ++ [frame] ∧
      (send s frame).2 = { s with send_queue_ := s.send_queue_ ++ [frame] }) := by
  refine ⟨send_true_iff s frame, fun h => ?_⟩
  rw [send_of_true s frame h]
  exact ⟨rfl, rfl⟩

/-- C2. Capacity bound. From a freshly constructed driver, after any finite
sequence of `start`, `stop`, `send` and loop steps the send queue holds at most
10,000 frames. And on any running driver, once 10,000 calls of `send` in a row
have all returned `true` (no dequeue in between), the queue holds exactly
10,000 frames and a further `send` returns `false` and changes nothing. -/
theorem queue_never_exceeds_capacity (name : String) (cb : Bool) (acts : List Action)
    (s : SocketCanDriver) (frames : List can_frame) (extra : can_frame)
    (hrun : s.running_ = true) (hlen : frames.length = 10000)
    (hok : ∀ b ∈ (send_all s frames).1, b = true) :
    (run (construct name cb) acts).send_queue_.length ≤ 10000 ∧
    (send_all s frames).2.send_queue_.length = 10000 ∧
    send (send_all s frames).2 extra = (false, (send_all s frames).2) := by
  have hinv := (run_preserves_Inv _ acts (construct_Inv name cb)).1
  obtain ⟨e1, _, e3⟩ := send_all_accepted s frames hrun hok
  have hne : frames ≠ [] := by
    intro h; rw [h] at hlen; simp at hlen
  have hle := e3 hne
  simp only [List.length_append, hlen, MAX_QUEUE_SIZE] at hle
  have hsz : (send_all s frames).2.send_queue_.length = 10000 := by
    rw [e1, List.length_append, hlen]; omega
  exact ⟨hinv, hsz, send_of_full _ extra (by rw [hsz]; exact le_refl _)⟩

/-- C3. On a driver that is not running, `send` returns `false` and leaves the
queue and every other field of the state unchanged. -/
theorem send_rejected_when_stopped (s : SocketCanDriver) (frame : can_frame)
    (h : s.running_ = false) :
    send s frame = (false, s) ∧ (send s frame).2.send_queue_ = s.send_queue_ := by
  rw [send_of_stopped s frame h]
  exact ⟨rfl, rfl⟩

/-- Witness for C2: a driver started on descriptor 3 takes 10,000 frames and
refuses the next one. -/
theorem queue_never_exceeds_capacity_witness :
    (run (construct "can0" true) [Action.start ⟨3, 0, 0, 0, 0⟩, Action.send ⟨1, 0, []⟩]).send_queue_.length
        ≤ 10000 ∧
    (send_all (start (construct "can0" true) ⟨3, 0, 0, 0, 0⟩).2
        (List.replicate 10000 ⟨0x123, 8, []⟩)).2.send_queue_.length = 10000 ∧
    send (send_all (start (construct "can0" true) ⟨3, 0, 0, 0, 0⟩).2
        (List.replicate 10000 ⟨0x123, 8, []⟩)).2 ⟨0x124, 8, []⟩ =
      (false, (send_all (start (construct "can0" true) ⟨3, 0, 0, 0, 0⟩).2
        (List.replicate 10000 ⟨0x123, 8, []⟩)).2) :=
  queue_never_exceeds_capacity "can0" true
    [Action.start ⟨3, 0, 0, 0, 0⟩, Action.send ⟨1, 0, []⟩]
    (start (construct "can0" true) ⟨3, 0, 0, 0, 0⟩).2
    (List.replicate 10000 ⟨0x123, 8, []⟩) ⟨0x124, 8, []⟩
    (by decide) (List.length_replicate _ _)
    (send_all_room _ _ (by decide) (by
      rw [List.length_replicate]
      exact le_of_eq (by decide)))

/-- Witness for C3: on a freshly constructed driver three calls of `send` with
identifiers 0x100, 0x101, 0x102 all return `false` and the queue stays empty. -/
theorem send_rejected_when_stopped_witness :
    (construct "can0" true).running_ = false ∧
    send (construct "can0" true) ⟨0x100, 8, []⟩ = (false, construct "can0" true) ∧
    send (send (construct "can0" true) ⟨0x100, 8, []⟩).2 ⟨0x101, 8, []⟩ =
      (false, construct "can0" true) ∧
    send (send (send (construct "can0" true) ⟨0x100, 8, []⟩).2 ⟨0x101, 8, []⟩).2
      ⟨0x102, 8, []⟩ = (false, construct "can0" true) ∧
    (send (send (send (construct "can0" true) ⟨0x100, 8, []⟩).2 ⟨0x101, 8, []⟩).2
      ⟨0x102, 8, []⟩).2.send_queue_ = [] := by
  have h1 := (send_rejected_when_stopped (construct "can0" true) ⟨0x100, 8, []⟩ rfl).1
  have h2 := (send_rejected_when_stopped (construct "can0" true) ⟨0x101, 8, []⟩ rfl).1
  have h3 := (send_rejected_when_stopped (construct "can0" true) ⟨0x102, 8, []⟩ rfl).1
  refine ⟨rfl, h1, ?_, ?_, ?_⟩
  · rw [h1]; exact h2
  · rw [h1, h2]; exact h3
  · rw [h1, h2, h3]; rfl


/-- C4. FIFO order. Take a running driver whose send thread is alive, whose
send queue is empty and whose send thread holds no popped frame, and let calls
of `send` be interleaved in any way with steps of the two loops, no `write`
failing. Then at every moment the frames written to the endpoint, followed by
the frame in flight and by the queue, are exactly the frames `send` accepted,
in the order of acceptance; so once the queue is drained the frames written
are the frames accepted, in the same order; and the send thread, left to run,
does drain the queue and has then written exactly the accepted frames in
order. -/
theorem fifo_order (s : SocketCanDriver) (acts : List Action)
    (hrun : s.running_ = true) (halive : send_thread_alive s = true)
    (hempty : s.send_queue_ = []) (hidle : pending s = [])
    (hacts : ∀ a ∈ acts, a.is_send_or_loop_step = true)
    (hok : ∀ a ∈ acts, a.write_succeeds = true) :
    written (run s acts) ++ pending (run s acts) ++ (run s acts).send_queue_ =
      written s ++ accepted s acts ∧
    (pending (run s acts) = [] → (run s acts).send_queue_ = [] →
      written (run s acts) = written s ++ accepted s acts) ∧
    (∀ n, 2 * (run s acts).send_queue_.length + 3 ≤ n →
      written (run (run s acts) (List.replicate n (Action.send_step 16))) =
        written s ++ accepted s acts) := by
  have h := written_run s acts hacts hok
  rw [hempty, hidle] at h
  simp only [List.append_nil] at h
  refine ⟨h, fun hp hq => ?_, fun n hn => ?_⟩
  · rw [hp, hq] at h
    simpa using h
  · obtain ⟨hr, ha⟩ := alive_run s acts hacts hrun halive
    have hquiet := sendThread_drains (run s acts) n 16 hr ha
      (le_trans (drain_steps_le _) hn)
    have hd := written_run (run s acts) (List.replicate n (Action.send_step 16))
      (fun a hmem => by rw [List.eq_of_mem_replicate hmem]; rfl)
      (fun a hmem => by rw [List.eq_of_mem_replicate hmem]; rfl)
    rw [accepted_send_steps, hquiet.1, hquiet.2] at hd
    simp only [List.append_nil] at hd
    rw [hd]
    exact h

/-- Witness for C4: three frames sent to a running driver while its send thread
is at work come out on the wire in the order 0x123, 0x124, 0x125. -/
theorem fifo_order_witness :
    written (run (start (construct "can0" true) ⟨3, 0, 0, 0, 0⟩).2
      [Action.send ⟨0x123, 8, []⟩, Action.send_step 16, Action.send ⟨0x124, 8, []⟩,
       Action.send_step 16, Action.send_step 16, Action.send ⟨0x125, 8, []⟩,
       Action.send_step 16, Action.recv_step ⟨0, false, 0, ⟨0, 0, []⟩, false⟩,
       Action.send_step 16, Action.send_step 16, Action.send_step 16, Action.send_step 16])
      = [⟨0x123, 8, []⟩, ⟨0x124, 8, []⟩, ⟨0x125, 8, []⟩] := by
  have h := (fifo_order (start (construct "can0" true) ⟨3, 0, 0, 0, 0⟩).2
      [Action.send ⟨0x123, 8, []⟩, Action.send_step 16, Action.send ⟨0x124, 8, []⟩,
       Action.send_step 16, Action.send_step 16, Action.send ⟨0x125, 8, []⟩,
       Action.send_step 16, Action.recv_step ⟨0, false, 0, ⟨0, 0, []⟩, false⟩,
       Action.send_step 16, Action.send_step 16, Action.send_step 16, Action.send_step 16]
      (by decide) (by decide) rfl rfl (by decide) (by decide)).2.1 (by decide) (by decide)
  rw [h]
  decide

/-- C10. At-most-once, no-retry transmission. When the send thread finds the
frame `frame` at the front of the queue, its next step removes it from the
queue and the step after hands it to `write` exactly once; whatever `write`
returns (full size, fewer bytes, or an error) the queue is then the old queue
without its head and the frame is not put back. Hence, for any interleaving
with further calls of `send` and any results of `write`, the frames handed to
`write` followed by the frame in flight and the queue are exactly the old
queue followed by the accepted frames: no frame is handed to `write` twice. -/
theorem transmit_at_most_once (s : SocketCanDriver) (frame : can_frame)
    (rest : List can_frame) (nbytes : Int) (acts : List Action)
    (hrun : s.running_ = true) (hpc : s.send_thread_ = some TxPc.drain_check)
    (hq : s.send_queue_ = frame :: rest)
    (hacts : ∀ a ∈ acts, a.is_send_or_loop_step = true) :
    ((sendThread_step s nbytes).send_queue_ = rest ∧
     (sendThread_step s nbytes).send_thread_ = some (TxPc.writing frame) ∧
     (sendThread_step s nbytes).wire = s.wire) ∧
    ((sendThread_step (sendThread_step s nbytes) nbytes).send_queue_ = rest ∧
     (sendThread_step (sendThread_step s nbytes) nbytes).wire = s.wire ++ [(frame, nbytes)] ∧
     (sendThread_step (sendThread_step s nbytes) nbytes).send_thread_ =
       some TxPc.drain_check) ∧
    attempted (run s acts) ++ pending (run s acts) ++ (run s acts).send_queue_ =
      attempted s ++ (frame :: rest) ++ accepted s acts ∧
    (∀ f, (attempted (run s acts)).count f ≤
      (attempted s ++ (frame :: rest) ++ accepted s acts).count f) := by
  have h := attempted_run s acts hacts
  have hp : pending s = [] := by simp [pending, hpc]
  rw [hp, hq] at h
  simp only [List.append_nil] at h
  refine ⟨?_, ?_, h, fun f => ?_⟩
  · simp [sendThread_step, hpc, hq, hrun]
  · simp [sendThread_step, hpc, hq, hrun]
  · rw [← h]
    simp only [List.count_append]
    omega

/-- Witness for C10: a short `write` (3 bytes) of the frame 0x123 still removes
it from the queue for good. -/
theorem transmit_at_most_once_witness :
    (sendThread_step (sendThread_step (run (start (construct "can0" true) ⟨3, 0, 0, 0, 0⟩).2
        [Action.send ⟨0x123, 8, []⟩, Action.send ⟨0x124, 8, []⟩,
         Action.send_step 16, Action.send_step 16]) 3) 3).send_queue_ = [⟨0x124, 8, []⟩] ∧
    (sendThread_step (sendThread_step (run (start (construct "can0" true) ⟨3, 0, 0, 0, 0⟩).2
        [Action.send ⟨0x123, 8, []⟩, Action.send ⟨0x124, 8, []⟩,
         Action.send_step 16, Action.send_step 16]) 3) 3).wire = [(⟨0x123, 8, []⟩, 3)] :=
  have h := transmit_at_most_once
    (run (start (construct "can0" true) ⟨3, 0, 0, 0, 0⟩).2
      [Action.send ⟨0x123, 8, []⟩, Action.send ⟨0x124, 8, []⟩,
       Action.send_step 16, Action.send_step 16])
    ⟨0x123, 8, []⟩ [⟨0x124, 8, []⟩] 3 [Action.send_step (-1), Action.send_step (-1)]
    (by decide) (by decide) (by decide) (by decide)
  ⟨h.2.1.1, h.2.1.2.1⟩

/-- What a failing `start` does, from any state that is not running: it returns
`false`, leaves flag, threads and queue alone, leaves `socket_fd_` negative and
leaves open no descriptor that was not open before the call; a following
`start` whose sub-steps all succeed returns `true` and runs. Nothing is said
here of a descriptor that was already open before the call. -/
theorem start_failure_effect (s : SocketCanDriver) (env ok : StartEnv)
    (hstopped : s.running_ = false) (hfail : env.fails) (hok : ok.succeeds) :
    (start s env).1 = false ∧
    (start s env).2.running_ = false ∧
    ((start s env).2.recv_thread_ = s.recv_thread_ ∧
     (start s env).2.send_thread_ = s.send_thread_) ∧
    (Reachable s →
      (start s env).2.recv_thread_ = none ∧ (start s env).2.send_thread_ = none) ∧
    (start s env).2.send_queue_ = s.send_queue_ ∧
    (start s env).2.socket_fd_ < 0 ∧
    (∀ fd ∈ (start s env).2.open_fds, fd ∈ s.open_fds) ∧
    (env.socket_ret ∉ s.open_fds → (start s env).2.open_fds = s.open_fds) ∧
    ((start (start s env).2 ok).1 = true ∧
     (start (start s env).2 ok).2.running_ = true ∧
     (start (start s env).2 ok).2.socket_fd_ = ok.socket_ret ∧
     ok.socket_ret ∈ (start (start s env).2 ok).2.open_fds) := by
  have hclose : ∀ fd ∈ close_fd (open_fd s.open_fds env.socket_ret) env.socket_ret,
      fd ∈ s.open_fds := by
    intro fd hmem
    rw [mem_close_fd] at hmem
    rcases mem_open_fd _ _ fd hmem.1 with e | e
    · exact e
    · exact absurd e.1 hmem.2
  have hfresh : ¬ env.socket_ret < 0 → env.socket_ret ∉ s.open_fds →
      close_fd (open_fd s.open_fds env.socket_ret) env.socket_ret = s.open_fds := by
    intro h1 hn
    simp only [open_fd, h1, if_false, close_fd, List.filter_cons, ne_eq, not_true_eq_false,
      decide_False, Bool.false_eq_true]
    rw [List.filter_eq_self]
    intro a ha
    simp only [decide_eq_true_eq]
    intro e
    exact hn (e ▸ ha)
  have hthreads : Reachable s → s.recv_thread_ = none ∧ s.send_thread_ = none :=
    fun hr => by
      obtain ⟨_, _, _, _, hns⟩ := hr
      exact not_stopping_threads s hns hstopped
  have key : (start s env).1 = false ∧ (start s env).2.running_ = false ∧
      ((start s env).2.recv_thread_ = s.recv_thread_ ∧
       (start s env).2.send_thread_ = s.send_thread_) ∧
      (start s env).2.send_queue_ = s.send_queue_ ∧ (start s env).2.socket_fd_ < 0 ∧
      (∀ fd ∈ (start s env).2.open_fds, fd ∈ s.open_fds) ∧
      (env.socket_ret ∉ s.open_fds → (start s env).2.open_fds = s.open_fds) := by
    by_cases h1 : env.socket_ret < 0
    · rw [start_of_socket_failure s env hstopped h1]
      refine ⟨rfl, hstopped, ⟨rfl, rfl⟩, rfl, h1, ?_, ?_⟩
      · intro fd hmem
        simpa [open_fd, h1] using hmem
      · intro _
        simp [open_fd, h1]
    · by_cases h2 : env.ioctl_ret < 0
      · rw [start_of_ioctl_failure s env hstopped h1 h2]
        exact ⟨rfl, hstopped, ⟨rfl, rfl⟩, rfl, neg_one_lt_zero, hclose, hfresh h1⟩
      · by_cases h3 : env.bind_ret < 0
        · rw [start_of_bind_failure s env hstopped h1 h2 h3]
          exact ⟨rfl, hstopped, ⟨rfl, rfl⟩, rfl, neg_one_lt_zero, hclose, hfresh h1⟩
        · by_cases h4 : env.getfl_ret = -1 ∨ env.setfl_ret = -1
          · rw [start_of_fcntl_failure s env hstopped h1 h2 h3 h4]
            exact ⟨rfl, hstopped, ⟨rfl, rfl⟩, rfl, neg_one_lt_zero, hclose, hfresh h1⟩
          · rcases hfail with h | h | h | h
            · exact absurd h h1
            · exact absurd h h2
            · exact absurd h h3
            · exact absurd h h4
  obtain ⟨k1, k2, k3, k4, k5, k6, k7⟩ := key
  obtain ⟨o1, o2, o3, o4, o5⟩ := hok
  have hretry := start_of_success (start s env).2 ok k2 (not_lt.mpr o1) (not_lt.mpr o2)
    (not_lt.mpr o3) (by rintro (h | h); exact o4 h; exact o5 h)
  refine ⟨k1, k2, k3, ?_, k4, k5, k6, k7, ?_⟩
  · intro hr
    exact ⟨k3.1.trans (hthreads hr).1, k3.2.trans (hthreads hr).2⟩
  · rw [hretry]
    refine ⟨rfl, rfl, rfl, ?_⟩
    simp [open_fd, not_lt.mpr o1]

/-- C5, where the code departs from it. The driver started on descriptor 3 and
stopped is not running and still has `socket_fd_ = 3` with descriptor 3 open.
A `start` that now fails, at the interface lookup (on the new descriptor 4) or
already at `socket`, returns `false` and leaves `socket_fd_ = -1` while
descriptor 3 is still open: line 25 has overwritten the only reference to it.
The destructor then closes nothing, so the descriptor stays open for good. -/
theorem failed_restart_leaves_descriptor_open :
    ((run (construct "can0" true)
        [Action.start ⟨3, 0, 0, 0, 0⟩, Action.stop ⟨0, false, 0, ⟨0, 0, []⟩, false⟩ 16]).running_ = false ∧
     stopping (run (construct "can0" true)
        [Action.start ⟨3, 0, 0, 0, 0⟩, Action.stop ⟨0, false, 0, ⟨0, 0, []⟩, false⟩ 16]) = false ∧
     (run (construct "can0" true)
        [Action.start ⟨3, 0, 0, 0, 0⟩, Action.stop ⟨0, false, 0, ⟨0, 0, []⟩, false⟩ 16]).socket_fd_ = 3 ∧
     (run (construct "can0" true)
        [Action.start ⟨3, 0, 0, 0, 0⟩, Action.stop ⟨0, false, 0, ⟨0, 0, []⟩, false⟩ 16]).open_fds = [3]) ∧
    ((start (run (construct "can0" true)
        [Action.start ⟨3, 0, 0, 0, 0⟩, Action.stop ⟨0, false, 0, ⟨0, 0, []⟩, false⟩ 16]) ⟨4, -1, 0, 0, 0⟩).1 = false ∧
     (start (run (construct "can0" true)
        [Action.start ⟨3, 0, 0, 0, 0⟩, Action.stop ⟨0, false, 0, ⟨0, 0, []⟩, false⟩ 16]) ⟨4, -1, 0, 0, 0⟩).2.socket_fd_ = -1 ∧
     (start (run (construct "can0" true)
        [Action.start ⟨3, 0, 0, 0, 0⟩, Action.stop ⟨0, false, 0, ⟨0, 0, []⟩, false⟩ 16]) ⟨4, -1, 0, 0, 0⟩).2.open_fds = [3]) ∧
    ((start (run (construct "can0" true)
        [Action.start ⟨3, 0, 0, 0, 0⟩, Action.stop ⟨0, false, 0, ⟨0, 0, []⟩, false⟩ 16]) ⟨-1, 0, 0, 0, 0⟩).1 = false ∧
     (start (run (construct "can0" true)
        [Action.start ⟨3, 0, 0, 0, 0⟩, Action.stop ⟨0, false, 0, ⟨0, 0, []⟩, false⟩ 16]) ⟨-1, 0, 0, 0, 0⟩).2.socket_fd_ = -1 ∧
     (start (run (construct "can0" true)
        [Action.start ⟨3, 0, 0, 0, 0⟩, Action.stop ⟨0, false, 0, ⟨0, 0, []⟩, false⟩ 16]) ⟨-1, 0, 0, 0, 0⟩).2.open_fds = [3]) ∧
    (destroy (start (run (construct "can0" true)
        [Action.start ⟨3, 0, 0, 0, 0⟩, Action.stop ⟨0, false, 0, ⟨0, 0, []⟩, false⟩ 16]) ⟨4, -1, 0, 0, 0⟩).2 ⟨0, false, 0, ⟨0, 0, []⟩, false⟩ 16).map
      (fun d => d.open_fds) = some [3] := by
  decide

/-- C6, as the code has it. The driver started on descriptor 3 and then stopped
is not running, yet `socket_fd_` is still 3 and descriptor 3 is still open:
holding an open endpoint is not equivalent to running, and `stop` has not
released the endpoint. Started again, on descriptor 4, the driver refers to 4
while descriptor 3 is still open. -/
theorem endpoint_still_open_after_stop :
    (stop (start (construct "can0" true) ⟨3, 0, 0, 0, 0⟩).2 ⟨0, false, 0, ⟨0, 0, []⟩, false⟩ 16 =
      some (run (construct "can0" true) [Action.start ⟨3, 0, 0, 0, 0⟩, Action.stop ⟨0, false, 0, ⟨0, 0, []⟩, false⟩ 16]) ∧
    (run (construct "can0" true)
      [Action.start ⟨3, 0, 0, 0, 0⟩, Action.stop ⟨0, false, 0, ⟨0, 0, []⟩, false⟩ 16]).running_ = false ∧
    (run (construct "can0" true)
      [Action.start ⟨3, 0, 0, 0, 0⟩, Action.stop ⟨0, false, 0, ⟨0, 0, []⟩, false⟩ 16]).socket_fd_ = 3 ∧
    (run (construct "can0" true)
      [Action.start ⟨3, 0, 0, 0, 0⟩, Action.stop ⟨0, false, 0, ⟨0, 0, []⟩, false⟩ 16]).open_fds = [3]) ∧
    ((run (construct "can0" true)
      [Action.start ⟨3, 0, 0, 0, 0⟩, Action.stop ⟨0, false, 0, ⟨0, 0, []⟩, false⟩ 16,
       Action.start ⟨4, 0, 0, 0, 0⟩]).socket_fd_ = 4 ∧
    (run (construct "can0" true)
      [Action.start ⟨3, 0, 0, 0, 0⟩, Action.stop ⟨0, false, 0, ⟨0, 0, []⟩, false⟩ 16,
       Action.start ⟨4, 0, 0, 0, 0⟩]).open_fds = [4, 3]) := by
  decide

/-- C6, amended. In every state reachable from a freshly constructed driver, a
running driver's `socket_fd_` refers to an open descriptor. `stop` does not
release the endpoint: whether or not the call returns, it leaves `socket_fd_`
and the open descriptors as they are; so when `stop` returns on a driver that
was running, the driver is no longer running and `socket_fd_` still refers to
an open descriptor. -/
theorem endpoint_open_while_running (s t : SocketCanDriver) (ev : RxEvent) (nbytes : Int)
    (h : Reachable s) :
    (s.running_ = true → s.socket_fd_ ∈ s.open_fds) ∧
    ((stop_run s ev nbytes).socket_fd_ = s.socket_fd_ ∧
     (stop_run s ev nbytes).open_fds = s.open_fds) ∧
    (stop s ev nbytes = some t →
      t.running_ = false ∧ t.socket_fd_ = s.socket_fd_ ∧ t.open_fds = s.open_fds ∧
      (s.running_ = true → t.socket_fd_ ∈ t.open_fds)) := by
  obtain ⟨_, _, hfd, _⟩ := reachable_Inv s h
  have hf := stop_run_fields s ev nbytes
  refine ⟨hfd, ⟨hf.2.2.2.2.1, hf.2.2.2.2.2.1⟩, fun hret => ?_⟩
  obtain ⟨_, _, g1, _, _, _, g5, g6, _⟩ := stop_some s ev nbytes t hret
  refine ⟨g1, g5, g6, fun hr => ?_⟩
  rw [g5, g6]
  exact hfd hr

/-- Witness for C6 amended, on the driver started on descriptor 3. -/
theorem endpoint_open_while_running_witness :
    (3 : Int) ∈ (run (construct "can0" true) [Action.start ⟨3, 0, 0, 0, 0⟩]).open_fds ∧
    (stop_run (run (construct "can0" true) [Action.start ⟨3, 0, 0, 0, 0⟩]) ⟨0, false, 0, ⟨0, 0, []⟩, false⟩ 16).running_
      = false ∧
    (3 : Int) ∈
      (stop_run (run (construct "can0" true) [Action.start ⟨3, 0, 0, 0, 0⟩]) ⟨0, false, 0, ⟨0, 0, []⟩, false⟩ 16).open_fds :=
  have h := endpoint_open_while_running
    (run (construct "can0" true) [Action.start ⟨3, 0, 0, 0, 0⟩])
    (stop_run (run (construct "can0" true) [Action.start ⟨3, 0, 0, 0, 0⟩]) ⟨0, false, 0, ⟨0, 0, []⟩, false⟩ 16)
    ⟨0, false, 0, ⟨0, 0, []⟩, false⟩ 16 ⟨"can0", true, [Action.start ⟨3, 0, 0, 0, 0⟩], rfl, by decide⟩
  ⟨h.1 (by decide), (h.2.2 (by decide)).1, (h.2.2 (by decide)).2.2.2 (by decide)⟩

/-- C7. Idempotent start and stop. On a running driver `start` returns `true`
and leaves the whole state unchanged, so a `start` that follows a successful
`start` returns `true` and changes nothing. On a driver that is not running
(in any state reachable from a fresh driver) `stop` returns and leaves the
whole state unchanged, and a `stop` that follows a `stop` changes nothing. -/
theorem start_stop_idempotent (s t u : SocketCanDriver) (env env2 : StartEnv)
    (ev ev2 : RxEvent) (nbytes nbytes2 : Int)
    (hrun : s.running_ = true) (ht : Reachable t) (hstopped : t.running_ = false) :
    start s env = (true, s) ∧
    ((start u env).1 = true → start (start u env).2 env2 = (true, (start u env).2)) ∧
    stop t ev nbytes = some t ∧
    (stop u ev nbytes).bind (fun v => stop v ev2 nbytes2) = stop u ev nbytes := by
  refine ⟨start_of_running s env hrun, ?_, ?_, ?_⟩
  · intro hres
    apply start_of_running
    by_cases h : u.running_ = true
    · rw [start_of_running u env h]; exact h
    · have h : u.running_ = false := by simpa using h
      by_cases h1 : env.socket_ret < 0
      · rw [start_of_socket_failure u env h h1] at hres; exact absurd hres (by simp)
      · by_cases h2 : env.ioctl_ret < 0
        · rw [start_of_ioctl_failure u env h h1 h2] at hres; exact absurd hres (by simp)
        · by_cases h3 : env.bind_ret < 0
          · rw [start_of_bind_failure u env h h1 h2 h3] at hres; exact absurd hres (by simp)
          · by_cases h4 : env.getfl_ret = -1 ∨ env.setfl_ret = -1
            · rw [start_of_fcntl_failure u env h h1 h2 h3 h4] at hres
              exact absurd hres (by simp)
            · rw [start_of_success u env h h1 h2 h3 h4]
  · obtain ⟨_, _, _, _, hns⟩ := ht
    have hth := not_stopping_threads t hns hstopped
    exact (stop_idle t ev nbytes hstopped hth.1 hth.2).1
  · cases hu : stop u ev nbytes with
    | none => rfl
    | some v =>
      obtain ⟨_, _, g1, g2, g3, _⟩ := stop_some u ev nbytes v hu
      simp only [Option.some_bind]
      exact (stop_idle v ev2 nbytes2 g1 g2 g3).1

/-- Witness for C7: the started driver, and the fresh (stopped) one. -/
theorem start_stop_idempotent_witness :
    start (start (construct "can0" true) ⟨3, 0, 0, 0, 0⟩).2 ⟨4, 0, 0, 0, 0⟩ =
      (true, (start (construct "can0" true) ⟨3, 0, 0, 0, 0⟩).2) ∧
    stop (construct "can0" true) ⟨0, false, 0, ⟨0, 0, []⟩, false⟩ 16 = some (construct "can0" true) :=
  have h := start_stop_idempotent (start (construct "can0" true) ⟨3, 0, 0, 0, 0⟩).2
    (construct "can0" true) (construct "can0" true) ⟨4, 0, 0, 0, 0⟩ ⟨4, 0, 0, 0, 0⟩
    ⟨0, false, 0, ⟨0, 0, []⟩, false⟩ ⟨0, false, 0, ⟨0, 0, []⟩, false⟩ 16 16
    (by decide) ⟨"can0", true, [], rfl, rfl⟩ rfl
  ⟨h.1, h.2.2.1⟩

/-- C8. Handler invocation count. On a running driver with a handler, let the
receive loop go through any finite sequence of `poll`/`read` outcomes. The
handler is then called once for each outcome in which `read` returned exactly
`sizeof(can_frame)` bytes, with those frames in delivery order, so N whole
frames give exactly N calls; a timeout, a `poll` error, a would-block result
or a short read gives no call; and after every outcome the loop is back at its
test with the driver still running, so none of them ends the loop. -/
theorem handler_called_once_per_frame (s : SocketCanDriver) (evs : List RxEvent)
    (ev : RxEvent) (hrun : s.running_ = true) (hcb : s.recv_callback_ = true)
    (hpc : s.recv_thread_ = some RxPc.loop_head) :
    (recvThread_loop s evs).handled = s.handled ++ delivered evs ∧
    (recvThread_loop s evs).handled.length =
      s.handled.length + (evs.filter RxEvent.full_frame).length ∧
    ((recvThread_loop s evs).recv_thread_ = some RxPc.loop_head ∧
     (recvThread_loop s evs).running_ = true) ∧
    (ev.full_frame = false →
      (recvThread_turn s ev).handled = s.handled ∧
      (recvThread_turn s ev).recv_thread_ = some RxPc.loop_head) := by
  obtain ⟨h1, h2, h3⟩ := recvThread_loop_running s evs hrun hcb hpc
  obtain ⟨t1, _, _, t4⟩ := recvThread_turn_running s ev hrun hcb hpc
  refine ⟨h1, ?_, ⟨h3, h2⟩, fun hf => ⟨?_, t4⟩⟩
  · rw [h1]; simp [delivered]
  · rw [t1]; simp [hf]

/-- Witness for C8: a timeout, a whole frame 0x200, a `poll` error, a would-block,
a short read and a whole frame 0x201 give exactly two handler calls, in order. -/
theorem handler_called_once_per_frame_witness :
    (recvThread_loop (start (construct "can0" true) ⟨3, 0, 0, 0, 0⟩).2
      [⟨0, false, 0, ⟨0, 0, []⟩, false⟩, ⟨1, true, 16, ⟨0x200, 8, []⟩, false⟩,
       ⟨-1, false, 0, ⟨0, 0, []⟩, false⟩, ⟨1, true, -1, ⟨0, 0, []⟩, true⟩,
       ⟨1, true, 7, ⟨0x7ff, 8, []⟩, false⟩, ⟨1, true, 16, ⟨0x201, 8, []⟩, false⟩]).handled
      = [⟨0x200, 8, []⟩, ⟨0x201, 8, []⟩] := by
  have h := (handler_called_once_per_frame (start (construct "can0" true) ⟨3, 0, 0, 0, 0⟩).2
      [⟨0, false, 0, ⟨0, 0, []⟩, false⟩, ⟨1, true, 16, ⟨0x200, 8, []⟩, false⟩,
       ⟨-1, false, 0, ⟨0, 0, []⟩, false⟩, ⟨1, true, -1, ⟨0, 0, []⟩, true⟩,
       ⟨1, true, 7, ⟨0x7ff, 8, []⟩, false⟩, ⟨1, true, 16, ⟨0x201, 8, []⟩, false⟩]
      ⟨0, false, 0, ⟨0, 0, []⟩, false⟩ (by decide) (by decide) (by decide)).1
  rw [h]
  decide

/-- The lost wake-up. On a running driver with an empty queue whose send thread
has tested the predicate of `send_cv_.wait` and has not blocked yet, `stop`
never returns: its `notify_all` comes too early, the thread blocks afterwards
and `send_thread_.join()` waits for ever. The destructor, which calls `stop`
first, never returns either. -/
theorem stop_never_returns_after_lost_wakeup :
    (run (construct "can0" true)
      [Action.start ⟨3, 0, 0, 0, 0⟩, Action.send_step 16, Action.send_step 16]).send_thread_
      = some TxPc.cv_unlock ∧
    stop (run (construct "can0" true)
      [Action.start ⟨3, 0, 0, 0, 0⟩, Action.send_step 16, Action.send_step 16]) ⟨0, false, 0, ⟨0, 0, []⟩, false⟩ 16 = none ∧
    destroy (run (construct "can0" true)
      [Action.start ⟨3, 0, 0, 0, 0⟩, Action.send_step 16, Action.send_step 16]) ⟨0, false, 0, ⟨0, 0, []⟩, false⟩ 16 = none ∧
    (stop_run (run (construct "can0" true)
      [Action.start ⟨3, 0, 0, 0, 0⟩, Action.send_step 16, Action.send_step 16])
      ⟨0, false, 0, ⟨0, 0, []⟩, false⟩ 16).send_thread_ = some TxPc.cv_blocked := by
  decide

end SocketCan
